import Mathlib

/-!
# Partial-refresh monochrome framebuffer transcoder

Shallow embedding of `epd_flush_cb` and `rounder_cb` from the three e-paper
tutorials of the repository:

* `epd_tutorials/EEZ_Studio_Demo/src/main.c`
* `epd_tutorials/epd_hello_world/src/main.c`
* `epd_tutorials/ssd1680_display/src/main.c`

Conventions of the embedding.

* `lv_coord_t` is `int32_t`; coordinates are `Int`.  Sums of coordinates
  (`x2 - x1 + 1`, `x1 + gx`, `y1 + row`) are kept in `Int`: signed overflow is
  undefined in C and none of the statements below needs it.
* Every conversion to an unsigned type is an explicit reduction modulo `2^w`
  (`to_u16`, `to_u32`, `% 256`, `% 65536`, `% 4294967296`).
* Memory is a function from indices to byte values.  `px_map` is the pointer
  the callback receives; the callback advances it by 8 (the I1 palette).
  `vtbuf` is the function-local `static` scratch buffer, so its previous
  content is an input of the callback.
* The state of the loops is instrumented with two logs: the indices at which
  `px_map[...]` is read and the indices at which `vtbuf[...]` is written.
* External calls (`display_write`) are recorded as a list of calls with the
  values the callee receives: `display_write` takes `const uint16_t x, y`, so
  the `lv_coord_t` arguments `x1`, `y1` arrive converted to `uint16_t`.
-/

/-- Rectangle of LVGL, `lv_area_t`: inclusive corner coordinates. -/
structure lv_area_t where
  x1 : Int
  y1 : Int
  x2 : Int
  y2 : Int
deriving DecidableEq, Repr

/-- Zephyr `struct display_buffer_descriptor`, the four fields the callbacks
initialise. -/
structure display_buffer_descriptor where
  buf_size : Nat
  width : Nat
  height : Nat
  pitch : Nat
deriving DecidableEq, Repr

/-- One recorded call `display_write(dev, x, y, &desc, buf)`: the values of the
`uint16_t` parameters `x`, `y` (always in `0..65535`), the descriptor and the
content of the buffer handed over. -/
structure display_write_call where
  x : Int
  y : Int
  desc : display_buffer_descriptor
  buf : Nat → Nat

/-- Instrumented state of the conversion loops. -/
structure flush_state where
  vtbuf : Nat → Nat
  px_reads : List Nat
  vt_writes : List Nat

/-- Everything observable after `epd_flush_cb` returns: the values of its
locals, the scratch buffer, the access logs and the sink calls made. -/
structure flush_result where
  x1 : Int
  y1 : Int
  x2 : Int
  y2 : Int
  w : Nat
  h : Nat
  groups : Nat
  vtbuf : Nat → Nat
  px_reads : List Nat
  vt_writes : List Nat
  calls : List display_write_call
  flush_ready_calls : Nat

/-- Conversion of an `int` value to `uint16_t`. -/
def to_u16 (z : Int) : Nat := (z % 65536).toNat

/-- Conversion of an `int` value to `uint32_t`. -/
def to_u32 (z : Int) : Nat := (z % 4294967296).toNat

/-- Reinterpretation of a 32-bit pattern as `int32_t` (two's complement). -/
def to_i32 (n : Nat) : Int :=
  if n % 4294967296 < 2147483648 then ((n % 4294967296 : Nat) : Int)
  else ((n % 4294967296 : Nat) : Int) - 4294967296

namespace EEZ_Studio_Demo

def PANEL_HOR_RES : Nat := 256

def PANEL_VER_RES : Nat := 128

def DRAW_BUF_SIZE : Nat := ((PANEL_HOR_RES * PANEL_VER_RES) / 8) + 8

/-- Number of elements of `static uint8_t vtbuf[...]`. -/
def VTBUF_LEN : Nat := PANEL_HOR_RES * ((PANEL_VER_RES + 7) / 8)

/-- Body of `for (uint8_t bit = 0; bit < 8; bit++)`; the state is
`(out_byte, log of px_map indices read)`.  `px_map` is the advanced pointer. -/
def bit_body (px_map : Nat → Nat) (x1 y1 : Int) (h gx gy : Nat)
    (st : Nat × List Nat) (bit : Nat) : Nat × List Nat :=
  let row : Nat := (gy * 8 + bit) % 65536
  let px : Int := x1 + (gx : Int)
  let py : Int := y1 + (row : Int)
  let idx : Nat := (to_u32 py * PANEL_HOR_RES + to_u32 px) % 4294967296
  let byte_index : Nat := idx >>> 3
  let bit_off : Nat := (idx &&& 7) % 256
  let bit_val : Nat :=
    if row < h then ((px_map byte_index >>> (7 - bit_off)) &&& 1) % 256 else 0
  let out_byte : Nat :=
    if bit_val ≠ 0 then (st.1 ||| (1 <<< (7 - bit))) % 256 else st.1
  (out_byte, if row < h then byte_index :: st.2 else st.2)

/-- Body of `for (uint16_t gy = 0; gy < groups; gy++)`. -/
def group_body (px_map : Nat → Nat) (x1 y1 : Int) (w h gx : Nat)
    (st : flush_state) (gy : Nat) : flush_state :=
  let r := (List.range 8).foldl (bit_body px_map x1 y1 h gx gy) (0, st.px_reads)
  { vtbuf := Function.update st.vtbuf (gy * w + gx) r.1
    px_reads := r.2
    vt_writes := (gy * w + gx) :: st.vt_writes }

/-- Body of `for (uint16_t gx = 0; gx < w; gx++)`. -/
def column_body (px_map : Nat → Nat) (x1 y1 : Int) (w h groups : Nat)
    (st : flush_state) (gx : Nat) : flush_state :=
  (List.range groups).foldl (group_body px_map x1 y1 w h gx) st

/-- The flush callback `epd_flush_cb(disp, area, px_map)`; `vtbuf0` is the
content of the static scratch buffer on entry. -/
def epd_flush_cb (vtbuf0 : Nat → Nat) (area : lv_area_t) (px_map : Nat → Nat) :
    flush_result :=
  let px_map8 : Nat → Nat := fun i => px_map (i + 8)
  let x1 := area.x1
  let y1 := area.y1
  let x2 : Int := if area.x2 ≥ 250 then 249 else area.x2
  let y2 : Int := if area.y2 ≥ 122 then 121 else area.y2
  let w : Nat := to_u16 (x2 - x1 + 1)
  let h : Nat := to_u16 (y2 - y1 + 1)
  let groups : Nat := ((h + 7) >>> 3) % 65536
  let st := (List.range w).foldl (column_body px_map8 x1 y1 w h groups)
    { vtbuf := vtbuf0, px_reads := [], vt_writes := [] }
  let desc : display_buffer_descriptor :=
    { buf_size := (w * groups) % 4294967296
      width := w
      pitch := w
      height := (groups * 8) % 65536 }
  { x1 := x1, y1 := y1, x2 := x2, y2 := y2, w := w, h := h, groups := groups
    vtbuf := st.vtbuf, px_reads := st.px_reads, vt_writes := st.vt_writes
    calls := [{ x := ((to_u16 x1 : Nat) : Int), y := ((to_u16 y1 : Nat) : Int)
                desc := desc, buf := st.vtbuf }]
    flush_ready_calls := 1 }

/-- The rounder callback, as a function on the area the event carries.
`~0x7` is the `int` -8, bit pattern `0xFFFFFFF8`; the comparison with
`PANEL_HOR_RES` (`256U`) is unsigned. -/
def rounder_cb (a : lv_area_t) : lv_area_t :=
  let x1 : Int := to_i32 (to_u32 a.x1 &&& to_u32 (-8))
  let x2 : Int := to_i32 (to_u32 a.x2 ||| 7)
  let x2 : Int := if to_u32 x2 ≥ PANEL_HOR_RES then ((PANEL_HOR_RES - 1 : Nat) : Int) else x2
  { x1 := x1, y1 := a.y1, x2 := x2, y2 := a.y2 }

end EEZ_Studio_Demo

namespace epd_hello_world

def PANEL_HOR_RES : Nat := 256

def PANEL_VER_RES : Nat := 128

def DRAW_BUF_SIZE : Nat := ((PANEL_HOR_RES * PANEL_VER_RES) / 8) + 8

/-- Number of elements of `static uint8_t vtbuf[...]`. -/
def VTBUF_LEN : Nat := PANEL_HOR_RES * ((PANEL_VER_RES + 7) / 8)

/-- Body of `for (uint8_t bit = 0; bit < 8; bit++)`; the state is
`(out_byte, log of px_map indices read)`.  `px_map` is the advanced pointer. -/
def bit_body (px_map : Nat → Nat) (x1 y1 : Int) (h gx gy : Nat)
    (st : Nat × List Nat) (bit : Nat) : Nat × List Nat :=
  let row : Nat := (gy * 8 + bit) % 65536
  let px : Int := x1 + (gx : Int)
  let py : Int := y1 + (row : Int)
  let idx : Nat := (to_u32 py * PANEL_HOR_RES + to_u32 px) % 4294967296
  let byte_index : Nat := idx >>> 3
  let bit_off : Nat := (idx &&& 7) % 256
  let bit_val : Nat :=
    if row < h then ((px_map byte_index >>> (7 - bit_off)) &&& 1) % 256 else 0
  let out_byte : Nat :=
    if bit_val ≠ 0 then (st.1 ||| (1 <<< (7 - bit))) % 256 else st.1
  (out_byte, if row < h then byte_index :: st.2 else st.2)

/-- Body of `for (uint16_t gy = 0; gy < groups; gy++)`. -/
def group_body (px_map : Nat → Nat) (x1 y1 : Int) (w h gx : Nat)
    (st : flush_state) (gy : Nat) : flush_state :=
  let r := (List.range 8).foldl (bit_body px_map x1 y1 h gx gy) (0, st.px_reads)
  { vtbuf := Function.update st.vtbuf (gy * w + gx) r.1
    px_reads := r.2
    vt_writes := (gy * w + gx) :: st.vt_writes }

/-- Body of `for (uint16_t gx = 0; gx < w; gx++)`. -/
def column_body (px_map : Nat → Nat) (x1 y1 : Int) (w h groups : Nat)
    (st : flush_state) (gx : Nat) : flush_state :=
  (List.range groups).foldl (group_body px_map x1 y1 w h gx) st

/-- The flush callback `epd_flush_cb(disp, area, px_map)`; `vtbuf0` is the
content of the static scratch buffer on entry. -/
def epd_flush_cb (vtbuf0 : Nat → Nat) (area : lv_area_t) (px_map : Nat → Nat) :
    flush_result :=
  let px_map8 : Nat → Nat := fun i => px_map (i + 8)
  let x1 := area.x1
  let y1 := area.y1
  let x2 : Int := if area.x2 ≥ 250 then 249 else area.x2
  let y2 : Int := if area.y2 ≥ 122 then 121 else area.y2
  let w : Nat := to_u16 (x2 - x1 + 1)
  let h : Nat := to_u16 (y2 - y1 + 1)
  let groups : Nat := ((h + 7) >>> 3) % 65536
  let st := (List.range w).foldl (column_body px_map8 x1 y1 w h groups)
    { vtbuf := vtbuf0, px_reads := [], vt_writes := [] }
  let desc : display_buffer_descriptor :=
    { buf_size := (w * groups) % 4294967296
      width := w
      pitch := w
      height := (groups * 8) % 65536 }
  { x1 := x1, y1 := y1, x2 := x2, y2 := y2, w := w, h := h, groups := groups
    vtbuf := st.vtbuf, px_reads := st.px_reads, vt_writes := st.vt_writes
    calls := [{ x := ((to_u16 x1 : Nat) : Int), y := ((to_u16 y1 : Nat) : Int)
                desc := desc, buf := st.vtbuf }]
    flush_ready_calls := 1 }

/-- The rounder callback, as a function on the area the event carries.
`~0x7` is the `int` -8, bit pattern `0xFFFFFFF8`; the comparison with
`PANEL_HOR_RES` (`256U`) is unsigned. -/
def rounder_cb (a : lv_area_t) : lv_area_t :=
  let x1 : Int := to_i32 (to_u32 a.x1 &&& to_u32 (-8))
  let x2 : Int := to_i32 (to_u32 a.x2 ||| 7)
  let x2 : Int := if to_u32 x2 ≥ PANEL_HOR_RES then ((PANEL_HOR_RES - 1 : Nat) : Int) else x2
  { x1 := x1, y1 := a.y1, x2 := x2, y2 := a.y2 }

end epd_hello_world

namespace ssd1680_display

def PANEL_HOR_RES : Nat := 256

def PANEL_VER_RES : Nat := 128

def DRAW_BUF_SIZE : Nat := ((PANEL_HOR_RES * PANEL_VER_RES) / 8) + 8

/-- Number of elements of `static uint8_t vtbuf[...]`. -/
def VTBUF_LEN : Nat := PANEL_HOR_RES * ((PANEL_VER_RES + 7) / 8)

/-- Body of `for (uint8_t bit = 0; bit < 8; bit++)`; the state is
`(out_byte, log of px_map indices read)`.  `px_map` is the advanced pointer. -/
def bit_body (px_map : Nat → Nat) (x1 y1 : Int) (h gx gy : Nat)
    (st : Nat × List Nat) (bit : Nat) : Nat × List Nat :=
  let row : Nat := (gy * 8 + bit) % 65536
  let px : Int := x1 + (gx : Int)
  let py : Int := y1 + (row : Int)
  let pixel_index : Nat := (to_u32 py * PANEL_HOR_RES + to_u32 px) % 4294967296
  let byte_index : Nat := pixel_index >>> 3
  let bit_offset : Nat := (pixel_index &&& 7) % 256
  let bit_val : Nat :=
    if row < h then ((px_map byte_index >>> (7 - bit_offset)) &&& 1) % 256 else 0
  let out_byte : Nat :=
    if bit_val ≠ 0 then (st.1 ||| (1 <<< (7 - bit))) % 256 else st.1
  (out_byte, if row < h then byte_index :: st.2 else st.2)

/-- Body of `for (uint16_t gy = 0; gy < groups; gy++)`. -/
def group_body (px_map : Nat → Nat) (x1 y1 : Int) (w h gx : Nat)
    (st : flush_state) (gy : Nat) : flush_state :=
  let r := (List.range 8).foldl (bit_body px_map x1 y1 h gx gy) (0, st.px_reads)
  { vtbuf := Function.update st.vtbuf (gy * w + gx) r.1
    px_reads := r.2
    vt_writes := (gy * w + gx) :: st.vt_writes }

/-- Body of `for (uint16_t gx = 0; gx < w; gx++)`. -/
def column_body (px_map : Nat → Nat) (x1 y1 : Int) (w h groups : Nat)
    (st : flush_state) (gx : Nat) : flush_state :=
  (List.range groups).foldl (group_body px_map x1 y1 w h gx) st

/-- The flush callback `epd_flush_cb(disp, area, px_map)`; `vtbuf0` is the
content of the static scratch buffer on entry. -/
def epd_flush_cb (vtbuf0 : Nat → Nat) (area : lv_area_t) (px_map : Nat → Nat) :
    flush_result :=
  let px_map8 : Nat → Nat := fun i => px_map (i + 8)
  let x1 := area.x1
  let y1 := area.y1
  let x2 : Int := if area.x2 ≥ 250 then 249 else area.x2
  let y2 : Int := if area.y2 ≥ 122 then 121 else area.y2
  let w : Nat := to_u16 (x2 - x1 + 1)
  let h : Nat := to_u16 (y2 - y1 + 1)
  let groups : Nat := ((h + 7) >>> 3) % 65536
  let st := (List.range w).foldl (column_body px_map8 x1 y1 w h groups)
    { vtbuf := vtbuf0, px_reads := [], vt_writes := [] }
  let desc : display_buffer_descriptor :=
    { buf_size := (w * groups) % 4294967296
      width := w
      pitch := w
      height := (groups * 8) % 65536 }
  { x1 := x1, y1 := y1, x2 := x2, y2 := y2, w := w, h := h, groups := groups
    vtbuf := st.vtbuf, px_reads := st.px_reads, vt_writes := st.vt_writes
    calls := [{ x := ((to_u16 x1 : Nat) : Int), y := ((to_u16 y1 : Nat) : Int)
                desc := desc, buf := st.vtbuf }]
    flush_ready_calls := 1 }

/-- The rounder callback, as a function on the area the event carries.
`~0x7` is the `int` -8, bit pattern `0xFFFFFFF8`; the comparison with
`PANEL_HOR_RES` (`256U`) is unsigned. -/
def rounder_cb (a : lv_area_t) : lv_area_t :=
  let x1 : Int := to_i32 (to_u32 a.x1 &&& to_u32 (-8))
  let x2 : Int := to_i32 (to_u32 a.x2 ||| 7)
  let x2 : Int := if to_u32 x2 ≥ PANEL_HOR_RES then ((PANEL_HOR_RES - 1 : Nat) : Int) else x2
  { x1 := x1, y1 := a.y1, x2 := x2, y2 := a.y2 }

end ssd1680_display

/-- Code-side value of the source bit the loop body fetches for column `gx`
and row `row` of the rectangle: the expressions of `bit_body`, as a Boolean. -/
def fetched_bit (px_map : Nat → Nat) (x1 y1 : Int) (gx row : Nat) : Bool :=
  let pixel_index : Nat :=
    (to_u32 (y1 + (row : Int)) * 256 + to_u32 (x1 + (gx : Int))) % 4294967296
  (px_map (pixel_index >>> 3)).testBit (7 - (pixel_index &&& 7) % 256)

/-- Code-side index of the source byte the loop body reads for column `gx`
and row `row` of the rectangle: `byte_index` of `bit_body`. -/
def read_index (x1 y1 : Int) (gx row : Nat) : Nat :=
  ((to_u32 (y1 + (row : Int)) * 256 + to_u32 (x1 + (gx : Int))) % 4294967296) >>> 3

/-- Value `out_byte` has when the `bit` loop of column `gx`, group `gy` ends. -/
def tile_byte (px_map : Nat → Nat) (x1 y1 : Int) (h gx gy : Nat) : Nat :=
  ((List.range 8).foldl (ssd1680_display.bit_body px_map x1 y1 h gx gy) (0, [])).1

/-- The spec's bit-addressing rule for the source buffer (spec §3, `Wl = 256`):
pixel `(x, y)` is bit `7 - ((y*256+x) mod 8)` of byte `⌊(y*256+x)/8⌋`. -/
def spec_pixel (src : Nat → Nat) (x y : Nat) : Bool :=
  (src ((y * 256 + x) / 8)).testBit (7 - (y * 256 + x) % 8)

/-- The spec's clipped right edge, `min(x2, Wp - 1)` with `Wp = 250`. -/
def spec_x2 (a : lv_area_t) : Int := min a.x2 249

/-- The spec's clipped bottom edge, `min(y2, Hp - 1)` with `Hp = 122`. -/
def spec_y2 (a : lv_area_t) : Int := min a.y2 121

/-- The spec's width of the clipped rectangle, `x2 - x1 + 1`. -/
def spec_width (a : lv_area_t) : Nat := (spec_x2 a - a.x1 + 1).toNat

/-- The spec's height of the clipped rectangle, `y2 - y1 + 1`. -/
def spec_height (a : lv_area_t) : Nat := (spec_y2 a - a.y1 + 1).toNat

/-- The spec's number of 8-row groups, `⌈height / 8⌉`. -/
def spec_groups (a : lv_area_t) : Nat := (spec_height a + 7) / 8

/-- The spec's precondition on a dirty rectangle that reaches the flush:
inside the 256x128 canvas and starting inside the 250x122 panel. -/
def dirty_rect_ok (a : lv_area_t) : Prop :=
  0 ≤ a.x1 ∧ a.x1 ≤ a.x2 ∧ a.x2 < 256 ∧ 0 ≤ a.y1 ∧ a.y1 ≤ a.y2 ∧ a.y2 < 128
    ∧ a.x1 ≤ 249 ∧ a.y1 ≤ 121

instance dirty_rect_ok_decidable (a : lv_area_t) : Decidable (dirty_rect_ok a) := by
  unfold dirty_rect_ok
  infer_instance

/-- The spec's inverse of the tiling rule: pixel `(c, r)` of a tiled buffer of
the given width is bit `7 - (r mod 8)` of the byte of column `c`, group `⌊r/8⌋`. -/
def untile (buf : Nat → Nat) (width c r : Nat) : Bool :=
  (buf ((r / 8) * width + c)).testBit (7 - r % 8)

/-- A rectangle within the physical 250x122 panel. -/
def in_panel (a : lv_area_t) : Prop :=
  0 ≤ a.x1 ∧ a.x1 ≤ a.x2 ∧ a.x2 ≤ 249 ∧ 0 ≤ a.y1 ∧ a.y1 ≤ a.y2 ∧ a.y2 ≤ 121

instance in_panel_decidable (a : lv_area_t) : Decidable (in_panel a) := by
  unfold in_panel
  infer_instance

/-- Draw buffer of concrete scenario 2 as the callback receives it (8 palette
bytes first): the two source bytes of pixels `(0..15, 5)`, at offsets
`8 + 160` and `8 + 161`, are `0xFF`; every other byte is 0. -/
def scenario2_px_map : Nat → Nat := fun i => if i = 168 ∨ i = 169 then 255 else 0

/-! ## Generic loop lemmas -/

theorem foldl_range_inv {σ : Type} (f : σ → Nat → σ) (Inv : Nat → σ → Prop)
    (n : Nat) (s0 : σ) (h0 : Inv 0 s0)
    (hstep : ∀ i, i < n → ∀ s, Inv i s → Inv (i + 1) (f s i)) :
    Inv n ((List.range n).foldl f s0) := by
  induction n with
  | zero => simpa using h0
  | succ k ih =>
    rw [List.range_succ, List.foldl_append]
    simp only [List.foldl_cons, List.foldl_nil]
    exact hstep k (Nat.lt_succ_self k) _
      (ih (fun i hi s hs => hstep i (Nat.lt_succ_of_lt hi) s hs))

theorem shift_and_one_ne_zero (v s : Nat) :
    ((v >>> s) &&& 1) % 256 ≠ 0 ↔ v.testBit s = true := by
  rw [Nat.and_one_is_mod, Nat.testBit_to_div_mod, Nat.shiftRight_eq_div_pow]
  simp only [decide_eq_true_eq]
  omega

theorem testBit_or_bit (o k b : Nat) (hk : k < 8) (hb : b < 8) :
    ((o ||| (1 <<< (7 - k))) % 256).testBit (7 - b)
      = (o.testBit (7 - b) || decide (k = b)) := by
  have h256 : (256 : Nat) = 2 ^ 8 := by norm_num
  rw [h256, Nat.testBit_mod_two_pow, Nat.testBit_or, Nat.one_shiftLeft, Nat.testBit_two_pow]
  have h1 : decide (7 - b < 8) = true := by simp; omega
  have h2 : decide (7 - k = 7 - b) = decide (k = b) := by
    apply decide_eq_decide.mpr; omega
  rw [h1, h2]; simp

namespace ssd1680_display

theorem bit_body_fst (px : Nat → Nat) (x1 y1 : Int) (h gx gy : Nat)
    (o : Nat) (rd : List Nat) (bit : Nat) :
    (bit_body px x1 y1 h gx gy (o, rd) bit).1
      = if (gy * 8 + bit) % 65536 < h ∧ fetched_bit px x1 y1 gx ((gy * 8 + bit) % 65536) = true
        then (o ||| (1 <<< (7 - bit))) % 256 else o := by
  simp only [bit_body, fetched_bit, PANEL_HOR_RES]
  by_cases hr : (gy * 8 + bit) % 65536 < h
  · simp only [hr, if_true, true_and, shift_and_one_ne_zero]
  · simp [hr]

end ssd1680_display

theorem idx_inj {w c c' g g' : Nat} (hc : c < w) (hc' : c' < w)
    (h : g * w + c = g' * w + c') : g = g' ∧ c = c' := by
  have h1 : (g * w + c) % w = c := by
    rw [Nat.add_comm, Nat.add_mul_mod_self_right, Nat.mod_eq_of_lt hc]
  have h2 : (g' * w + c') % w = c' := by
    rw [Nat.add_comm, Nat.add_mul_mod_self_right, Nat.mod_eq_of_lt hc']
  have hcc : c = c' := by rw [← h1, ← h2, h]
  subst hcc
  have hw : 0 < w := Nat.lt_of_le_of_lt (Nat.zero_le _) hc
  have h3 : g * w = g' * w := Nat.add_right_cancel h
  exact ⟨Nat.eq_of_mul_eq_mul_right hw h3, rfl⟩

namespace ssd1680_display

theorem bit_body_snd (px : Nat → Nat) (x1 y1 : Int) (h gx gy : Nat)
    (o : Nat) (rd : List Nat) (bit : Nat) :
    (bit_body px x1 y1 h gx gy (o, rd) bit).2
      = if (gy * 8 + bit) % 65536 < h
        then read_index x1 y1 gx ((gy * 8 + bit) % 65536) :: rd else rd := by
  simp only [bit_body, read_index, PANEL_HOR_RES]

theorem bit_loop_fst_indep (px : Nat → Nat) (x1 y1 : Int) (h gx gy : Nat)
    (l : List Nat) (o : Nat) (rd rd' : List Nat) :
    (l.foldl (bit_body px x1 y1 h gx gy) (o, rd)).1
      = (l.foldl (bit_body px x1 y1 h gx gy) (o, rd')).1 := by
  induction l generalizing o rd rd' with
  | nil => rfl
  | cons b l ih =>
    simp only [List.foldl_cons]
    rw [← Prod.mk.eta (p := bit_body px x1 y1 h gx gy (o, rd) b),
      ← Prod.mk.eta (p := bit_body px x1 y1 h gx gy (o, rd') b),
      bit_body_fst, bit_body_fst]
    exact ih _ _ _

theorem bit_loop_bits (px : Nat → Nat) (x1 y1 : Int) (h gx gy : Nat) :
    tile_byte px x1 y1 h gx gy < 256 ∧ ∀ b, b < 8 →
      (tile_byte px x1 y1 h gx gy).testBit (7 - b)
        = (decide ((gy * 8 + b) % 65536 < h)
            && fetched_bit px x1 y1 gx ((gy * 8 + b) % 65536)) := by
  have key := foldl_range_inv (bit_body px x1 y1 h gx gy)
    (fun i s => s.1 < 256 ∧ ∀ b, b < 8 → s.1.testBit (7 - b)
        = (decide (b < i) && (decide ((gy * 8 + b) % 65536 < h)
            && fetched_bit px x1 y1 gx ((gy * 8 + b) % 65536))))
    8 (0, []) ⟨by norm_num, by intro b _; simp⟩
    (by
      rintro i hi ⟨o, rd⟩ ⟨ho, hbits⟩
      simp only [bit_body_fst]
      simp only at ho hbits
      by_cases hc : (gy * 8 + i) % 65536 < h
          ∧ fetched_bit px x1 y1 gx ((gy * 8 + i) % 65536) = true
      · rw [if_pos hc]
        refine ⟨Nat.mod_lt _ (by norm_num), ?_⟩
        intro b hb
        rw [testBit_or_bit o i b hi hb, hbits b hb]
        by_cases hbi : i = b
        · subst hbi
          simp [hc.1, hc.2]
        · have h3 : decide (b < i + 1) = decide (b < i) := by
            apply decide_eq_decide.mpr; omega
          simp [hbi, h3]
      · rw [if_neg hc]
        refine ⟨ho, ?_⟩
        intro b hb
        rw [hbits b hb]
        by_cases hbi : i = b
        · subst hbi
          have h4 : (decide ((gy * 8 + i) % 65536 < h)
              && fetched_bit px x1 y1 gx ((gy * 8 + i) % 65536)) = false := by
            by_cases h5 : (gy * 8 + i) % 65536 < h
            · have h6 : fetched_bit px x1 y1 gx ((gy * 8 + i) % 65536) = false := by
                cases h7 : fetched_bit px x1 y1 gx ((gy * 8 + i) % 65536)
                · rfl
                · exact absurd ⟨h5, h7⟩ hc
              simp [h6]
            · simp [h5]
          simp [h4]
        · have h3 : decide (b < i + 1) = decide (b < i) := by
            apply decide_eq_decide.mpr; omega
          rw [h3])
  refine ⟨key.1, ?_⟩
  intro b hb
  have := key.2 b hb
  simpa [hb] using this

end ssd1680_display

namespace ssd1680_display

theorem bit_loop_reads (px : Nat → Nat) (x1 y1 : Int) (h gx gy : Nat) (Q : Nat → Prop)
    (hQ : ∀ b, b < 8 → (gy * 8 + b) % 65536 < h →
      Q (read_index x1 y1 gx ((gy * 8 + b) % 65536)))
    (rd : List Nat) (hrd : ∀ i ∈ rd, Q i) (o : Nat) :
    ∀ i ∈ ((List.range 8).foldl (bit_body px x1 y1 h gx gy) (o, rd)).2, Q i := by
  refine foldl_range_inv (bit_body px x1 y1 h gx gy) (fun _ s => ∀ i ∈ s.2, Q i)
    8 (o, rd) hrd ?_
  rintro b hb ⟨o', rd'⟩ hs
  simp only [bit_body_snd]
  simp only at hs
  by_cases hr : (gy * 8 + b) % 65536 < h
  · rw [if_pos hr]
    intro i hi
    rcases List.mem_cons.mp hi with rfl | hi'
    · exact hQ b hb hr
    · exact hs i hi'
  · rw [if_neg hr]; exact hs

theorem group_body_vtbuf (px : Nat → Nat) (x1 y1 : Int) (w h gx : Nat)
    (st : flush_state) (gy : Nat) :
    (group_body px x1 y1 w h gx st gy).vtbuf
      = Function.update st.vtbuf (gy * w + gx) (tile_byte px x1 y1 h gx gy) := by
  simp only [group_body, tile_byte]
  rw [bit_loop_fst_indep px x1 y1 h gx gy (List.range 8) 0 st.px_reads []]

theorem group_body_writes (px : Nat → Nat) (x1 y1 : Int) (w h gx : Nat)
    (st : flush_state) (gy : Nat) :
    (group_body px x1 y1 w h gx st gy).vt_writes = (gy * w + gx) :: st.vt_writes := rfl

theorem group_body_reads (px : Nat → Nat) (x1 y1 : Int) (w h gx : Nat)
    (st : flush_state) (gy : Nat) :
    (group_body px x1 y1 w h gx st gy).px_reads
      = ((List.range 8).foldl (bit_body px x1 y1 h gx gy) (0, st.px_reads)).2 := rfl

/-- Effect of one column (`gx < w`) on the scratch buffer: the bytes of the
column are the loop's `out_byte` values, everything else is untouched. -/
theorem column_body_vtbuf (px : Nat → Nat) (x1 y1 : Int) (w h groups : Nat)
    (st : flush_state) (gx : Nat) (hgx : gx < w) :
    (∀ g, g < groups →
      (column_body px x1 y1 w h groups st gx).vtbuf (g * w + gx)
        = tile_byte px x1 y1 h gx g)
    ∧ (∀ i, (∀ g, g < groups → i ≠ g * w + gx) →
      (column_body px x1 y1 w h groups st gx).vtbuf i = st.vtbuf i) := by
  refine foldl_range_inv (group_body px x1 y1 w h gx)
    (fun m s => (∀ g, g < m → s.vtbuf (g * w + gx) = tile_byte px x1 y1 h gx g)
      ∧ (∀ i, (∀ g, g < m → i ≠ g * w + gx) → s.vtbuf i = st.vtbuf i))
    groups st ⟨by intro g hg; omega, by intro i _; rfl⟩ ?_
  rintro m _ s ⟨ha, hb⟩
  rw [group_body_vtbuf]
  constructor
  · intro g hg
    by_cases hgm : g = m
    · subst hgm; simp
    · have hne : g * w + gx ≠ m * w + gx := fun e => hgm (idx_inj hgx hgx e).1
      rw [Function.update_noteq hne]
      exact ha g (by omega)
  · intro i hi
    have hne : i ≠ m * w + gx := hi m (Nat.lt_succ_self m)
    rw [Function.update_noteq hne]
    exact hb i (fun g hg => hi g (Nat.lt_succ_of_lt hg))

theorem column_body_writes (px : Nat → Nat) (x1 y1 : Int) (w h groups : Nat)
    (st : flush_state) (gx : Nat) (Q : Nat → Prop)
    (hQ : ∀ g, g < groups → Q (g * w + gx)) (hst : ∀ j ∈ st.vt_writes, Q j) :
    (∀ j ∈ (column_body px x1 y1 w h groups st gx).vt_writes, Q j)
    ∧ (column_body px x1 y1 w h groups st gx).vt_writes.length
        = st.vt_writes.length + groups := by
  refine foldl_range_inv (group_body px x1 y1 w h gx)
    (fun m s => (∀ j ∈ s.vt_writes, Q j) ∧ s.vt_writes.length = st.vt_writes.length + m)
    groups st ⟨hst, rfl⟩ ?_
  rintro m hm s ⟨ha, hb⟩
  rw [group_body_writes]
  refine ⟨?_, by simp [hb]; omega⟩
  intro j hj
  rcases List.mem_cons.mp hj with rfl | hj'
  · exact hQ m hm
  · exact ha j hj'

theorem column_body_reads (px : Nat → Nat) (x1 y1 : Int) (w h groups : Nat)
    (st : flush_state) (gx : Nat) (Q : Nat → Prop)
    (hQ : ∀ g, g < groups → ∀ b, b < 8 → (g * 8 + b) % 65536 < h →
      Q (read_index x1 y1 gx ((g * 8 + b) % 65536)))
    (hst : ∀ i ∈ st.px_reads, Q i) :
    ∀ i ∈ (column_body px x1 y1 w h groups st gx).px_reads, Q i := by
  refine foldl_range_inv (group_body px x1 y1 w h gx)
    (fun _ s => ∀ i ∈ s.px_reads, Q i) groups st hst ?_
  intro m hm s hs
  rw [group_body_reads]
  exact bit_loop_reads px x1 y1 h gx m Q (hQ m hm) s.px_reads hs 0

/-- All three loops: content of the scratch buffer and of the two logs. -/
theorem columns_loop (px : Nat → Nat) (x1 y1 : Int) (w h groups : Nat)
    (st : flush_state) (Qw Qr : Nat → Prop)
    (hQw : ∀ c, c < w → ∀ g, g < groups → Qw (g * w + c))
    (hQr : ∀ c, c < w → ∀ g, g < groups → ∀ b, b < 8 → (g * 8 + b) % 65536 < h →
      Qr (read_index x1 y1 c ((g * 8 + b) % 65536)))
    (hw0 : ∀ j ∈ st.vt_writes, Qw j) (hr0 : ∀ i ∈ st.px_reads, Qr i) :
    let s := (List.range w).foldl (column_body px x1 y1 w h groups) st
    (∀ c, c < w → ∀ g, g < groups → s.vtbuf (g * w + c) = tile_byte px x1 y1 h c g)
    ∧ (∀ i, (∀ c, c < w → ∀ g, g < groups → i ≠ g * w + c) → s.vtbuf i = st.vtbuf i)
    ∧ (∀ j ∈ s.vt_writes, Qw j)
    ∧ s.vt_writes.length = st.vt_writes.length + w * groups
    ∧ (∀ i ∈ s.px_reads, Qr i) := by
  have key := foldl_range_inv (column_body px x1 y1 w h groups)
    (fun n s => n ≤ w →
      (∀ c, c < n → ∀ g, g < groups → s.vtbuf (g * w + c) = tile_byte px x1 y1 h c g)
      ∧ (∀ i, (∀ c, c < n → ∀ g, g < groups → i ≠ g * w + c) → s.vtbuf i = st.vtbuf i)
      ∧ (∀ j ∈ s.vt_writes, Qw j)
      ∧ s.vt_writes.length = st.vt_writes.length + n * groups
      ∧ (∀ i ∈ s.px_reads, Qr i))
    w st
    (fun _ => ⟨by intro c hc; omega, by intro i _; rfl, hw0, by simp, hr0⟩)
    (by
      intro n hn s hs hle
      obtain ⟨h1, h2, h3, h4, h5⟩ := hs (Nat.le_of_lt hn)
      have hv := column_body_vtbuf px x1 y1 w h groups s n hn
      have hwr := column_body_writes px x1 y1 w h groups s n Qw (hQw n hn) h3
      have hrd := column_body_reads px x1 y1 w h groups s n Qr (hQr n hn) h5
      refine ⟨?_, ?_, hwr.1, ?_, hrd⟩
      · intro c hc g hg
        by_cases hcn : c = n
        · subst hcn; exact hv.1 g hg
        · have hcw : c < w := by omega
          rw [hv.2 (g * w + c)
            (fun g' _ e => hcn (idx_inj hcw hn e).2)]
          exact h1 c (by omega) g hg
      · intro i hi
        rw [hv.2 i (fun g hg => hi n (Nat.lt_succ_self n) g hg)]
        exact h2 i (fun c hc g hg => hi c (Nat.lt_succ_of_lt hc) g hg)
      · rw [hwr.2, h4, Nat.succ_mul]; omega)
  exact key (Nat.le_refl w)

end ssd1680_display

/-! ## The three copies are the same function -/

theorem eez_flush_same_as_ssd1680 :
    EEZ_Studio_Demo.epd_flush_cb = ssd1680_display.epd_flush_cb := rfl

theorem hello_flush_same_as_ssd1680 :
    epd_hello_world.epd_flush_cb = ssd1680_display.epd_flush_cb := rfl

theorem eez_rounder_same_as_ssd1680 :
    EEZ_Studio_Demo.rounder_cb = ssd1680_display.rounder_cb := rfl

theorem hello_rounder_same_as_ssd1680 :
    epd_hello_world.rounder_cb = ssd1680_display.rounder_cb := rfl

/-! ## Geometry of the clipped rectangle -/

theorem to_u32_of_nonneg (z : Int) (h0 : 0 ≤ z) (h1 : z < 4294967296) :
    to_u32 z = z.toNat := by
  unfold to_u32; omega

theorem flush_geometry (vtbuf0 px_map : Nat → Nat) (a : lv_area_t) (ha : dirty_rect_ok a) :
    (ssd1680_display.epd_flush_cb vtbuf0 a px_map).w = spec_width a
    ∧ (ssd1680_display.epd_flush_cb vtbuf0 a px_map).h = spec_height a
    ∧ (ssd1680_display.epd_flush_cb vtbuf0 a px_map).groups = spec_groups a
    ∧ 1 ≤ spec_width a ∧ spec_width a ≤ 250
    ∧ 1 ≤ spec_height a ∧ spec_height a ≤ 122
    ∧ ((a.x1.toNat + spec_width a : Nat) : Int) = spec_x2 a + 1
    ∧ ((a.y1.toNat + spec_height a : Nat) : Int) = spec_y2 a + 1 := by
  obtain ⟨h1, h2, h3, h4, h5, h6, h7, h8⟩ := ha
  simp only [ssd1680_display.epd_flush_cb, spec_width, spec_height, spec_groups, spec_x2,
    spec_y2, to_u16, Nat.shiftRight_eq_div_pow]
  refine ⟨?_, ?_, ?_, ?_, ?_, ?_, ?_, ?_, ?_⟩ <;> (try split_ifs) <;> omega

theorem fetched_bit_eq_spec (px : Nat → Nat) (x1 y1 : Int) (c r : Nat)
    (hx1 : 0 ≤ x1) (hy1 : 0 ≤ y1) (hx : x1 + c < 65536) (hy : y1 + r < 65536) :
    fetched_bit px x1 y1 c r = spec_pixel px (x1.toNat + c) (y1.toNat + r) := by
  have e1 : to_u32 (y1 + (r : Int)) = y1.toNat + r := by
    rw [to_u32_of_nonneg _ (by omega) (by omega)]; omega
  have e2 : to_u32 (x1 + (c : Int)) = x1.toNat + c := by
    rw [to_u32_of_nonneg _ (by omega) (by omega)]; omega
  have e3 : ((y1.toNat + r) * 256 + (x1.toNat + c)) % 4294967296
      = (y1.toNat + r) * 256 + (x1.toNat + c) := by omega
  have e4 : ∀ n : Nat, (n &&& 7) % 256 = n % 8 := by
    intro n
    have := Nat.and_pow_two_sub_one_eq_mod n 3
    norm_num at this
    rw [this]; omega
  simp only [fetched_bit, spec_pixel, e1, e2, e3, e4, Nat.shiftRight_eq_div_pow]

theorem read_index_eq_spec (x1 y1 : Int) (c r : Nat)
    (hx1 : 0 ≤ x1) (hy1 : 0 ≤ y1) (hx : x1 + c < 65536) (hy : y1 + r < 65536) :
    read_index x1 y1 c r = ((y1.toNat + r) * 256 + (x1.toNat + c)) / 8 := by
  have e1 : to_u32 (y1 + (r : Int)) = y1.toNat + r := by
    rw [to_u32_of_nonneg _ (by omega) (by omega)]; omega
  have e2 : to_u32 (x1 + (c : Int)) = x1.toNat + c := by
    rw [to_u32_of_nonneg _ (by omega) (by omega)]; omega
  simp only [read_index, e1, e2, Nat.shiftRight_eq_div_pow]
  omega

/-! ## The flush callback as a whole -/

theorem flush_loops (vtbuf0 px_map : Nat → Nat) (a : lv_area_t) :
    (∀ c, c < (ssd1680_display.epd_flush_cb vtbuf0 a px_map).w →
      ∀ g, g < (ssd1680_display.epd_flush_cb vtbuf0 a px_map).groups →
        (ssd1680_display.epd_flush_cb vtbuf0 a px_map).vtbuf
            (g * (ssd1680_display.epd_flush_cb vtbuf0 a px_map).w + c)
          = tile_byte (fun i => px_map (i + 8)) a.x1 a.y1
              (ssd1680_display.epd_flush_cb vtbuf0 a px_map).h c g)
    ∧ (∀ j ∈ (ssd1680_display.epd_flush_cb vtbuf0 a px_map).vt_writes,
        ∃ c g, c < (ssd1680_display.epd_flush_cb vtbuf0 a px_map).w
          ∧ g < (ssd1680_display.epd_flush_cb vtbuf0 a px_map).groups
          ∧ j = g * (ssd1680_display.epd_flush_cb vtbuf0 a px_map).w + c)
    ∧ (ssd1680_display.epd_flush_cb vtbuf0 a px_map).vt_writes.length
        = (ssd1680_display.epd_flush_cb vtbuf0 a px_map).w
          * (ssd1680_display.epd_flush_cb vtbuf0 a px_map).groups
    ∧ (∀ i ∈ (ssd1680_display.epd_flush_cb vtbuf0 a px_map).px_reads,
        ∃ c g b, c < (ssd1680_display.epd_flush_cb vtbuf0 a px_map).w
          ∧ g < (ssd1680_display.epd_flush_cb vtbuf0 a px_map).groups ∧ b < 8
          ∧ (g * 8 + b) % 65536 < (ssd1680_display.epd_flush_cb vtbuf0 a px_map).h
          ∧ i = read_index a.x1 a.y1 c ((g * 8 + b) % 65536)) := by
  have key := ssd1680_display.columns_loop (fun i => px_map (i + 8)) a.x1 a.y1
    (ssd1680_display.epd_flush_cb vtbuf0 a px_map).w
    (ssd1680_display.epd_flush_cb vtbuf0 a px_map).h
    (ssd1680_display.epd_flush_cb vtbuf0 a px_map).groups
    { vtbuf := vtbuf0, px_reads := [], vt_writes := [] }
    (fun j => ∃ c g, c < (ssd1680_display.epd_flush_cb vtbuf0 a px_map).w
      ∧ g < (ssd1680_display.epd_flush_cb vtbuf0 a px_map).groups
      ∧ j = g * (ssd1680_display.epd_flush_cb vtbuf0 a px_map).w + c)
    (fun i => ∃ c g b, c < (ssd1680_display.epd_flush_cb vtbuf0 a px_map).w
      ∧ g < (ssd1680_display.epd_flush_cb vtbuf0 a px_map).groups ∧ b < 8
      ∧ (g * 8 + b) % 65536 < (ssd1680_display.epd_flush_cb vtbuf0 a px_map).h
      ∧ i = read_index a.x1 a.y1 c ((g * 8 + b) % 65536))
    (fun c hc g hg => ⟨c, g, hc, hg, rfl⟩)
    (fun c hc g hg b hb hr => ⟨c, g, b, hc, hg, hb, hr, rfl⟩)
    (fun j hj => absurd hj (List.not_mem_nil j))
    (fun i hi => absurd hi (List.not_mem_nil i))
  obtain ⟨k1, _, k3, k4, k5⟩ := key
  refine ⟨k1, k3, ?_, k5⟩
  have : ([] : List Nat).length = 0 := rfl
  rw [this, Nat.zero_add] at k4
  exact k4

theorem flush_tile (vtbuf0 px_map : Nat → Nat) (a : lv_area_t) (ha : dirty_rect_ok a)
    (c g : Nat) (hc : c < spec_width a) (hg : g < spec_groups a) :
    (ssd1680_display.epd_flush_cb vtbuf0 a px_map).vtbuf (g * spec_width a + c)
      = tile_byte (fun i => px_map (i + 8)) a.x1 a.y1 (spec_height a) c g := by
  obtain ⟨gw, gh, gg, _⟩ := flush_geometry vtbuf0 px_map a ha
  have key := (flush_loops vtbuf0 px_map a).1 c (by rw [gw]; exact hc) g (by rw [gg]; exact hg)
  rw [gw, gh] at key
  exact key

theorem flush_tile_bits (vtbuf0 px_map : Nat → Nat) (a : lv_area_t) (ha : dirty_rect_ok a)
    (c g b : Nat) (hc : c < spec_width a) (hg : g < spec_groups a) (hb : b < 8) :
    ((ssd1680_display.epd_flush_cb vtbuf0 a px_map).vtbuf (g * spec_width a + c)).testBit (7 - b)
      = (decide (g * 8 + b < spec_height a)
          && spec_pixel (fun i => px_map (i + 8)) (a.x1.toNat + c) (a.y1.toNat + (g * 8 + b))) := by
  obtain ⟨_, _, _, hw1, hw2, hh1, hh2, hxw, hyh⟩ := flush_geometry vtbuf0 px_map a ha
  have ha' := ha
  obtain ⟨h1, h2, h3, h4, h5, h6, h7, h8⟩ := ha'
  have hgr : g * 8 + b < 65536 := by unfold spec_groups at hg; omega
  rw [flush_tile vtbuf0 px_map a ha c g hc hg,
    (ssd1680_display.bit_loop_bits _ a.x1 a.y1 (spec_height a) c g).2 b hb,
    Nat.mod_eq_of_lt hgr]
  by_cases hr : g * 8 + b < spec_height a
  · rw [fetched_bit_eq_spec _ a.x1 a.y1 c (g * 8 + b) h1 h4
      (by unfold spec_x2 at hxw; omega) (by unfold spec_y2 at hyh; omega)]
  · simp [hr]

/-- C1 (`ssd1680_display`, `epd_flush_cb`): for every source buffer and every
dirty rectangle with `0 ≤ x1 ≤ x2 < 256`, `0 ≤ y1 ≤ y2 < 128`, `x1 ≤ 249`,
`y1 ≤ 121`, the callback's `w`, `h`, `groups` are the width, height and
`⌈height/8⌉` of the rectangle clipped to 250x122, and for every column
`c < width`, group `g < groups` and bit position `b < 8`, bit `7-b` of
`vtbuf[g*width + c]` is set exactly when `g*8+b < height` and the source pixel
`(x1+c, y1+g*8+b)` is set under the MSB-first row-major addressing rule; in
particular the positions with `g*8+b ≥ height` are zero, and the byte fits in
eight bits. -/
theorem ssd1680_flush_vertical_tiling (vtbuf0 px_map : Nat → Nat) (a : lv_area_t)
    (ha : dirty_rect_ok a) (c g b : Nat)
    (hc : c < spec_width a) (hg : g < spec_groups a) (hb : b < 8) :
    (ssd1680_display.epd_flush_cb vtbuf0 a px_map).w = spec_width a
    ∧ (ssd1680_display.epd_flush_cb vtbuf0 a px_map).h = spec_height a
    ∧ (ssd1680_display.epd_flush_cb vtbuf0 a px_map).groups = spec_groups a
    ∧ (((ssd1680_display.epd_flush_cb vtbuf0 a px_map).vtbuf
          (g * spec_width a + c)).testBit (7 - b) = true
        ↔ (g * 8 + b < spec_height a
            ∧ spec_pixel (fun i => px_map (i + 8)) (a.x1.toNat + c)
                (a.y1.toNat + (g * 8 + b)) = true))
    ∧ (spec_height a ≤ g * 8 + b →
        ((ssd1680_display.epd_flush_cb vtbuf0 a px_map).vtbuf
          (g * spec_width a + c)).testBit (7 - b) = false)
    ∧ (ssd1680_display.epd_flush_cb vtbuf0 a px_map).vtbuf (g * spec_width a + c) < 256 := by
  obtain ⟨gw, gh, gg, _⟩ := flush_geometry vtbuf0 px_map a ha
  refine ⟨gw, gh, gg, ?_, ?_, ?_⟩
  · rw [flush_tile_bits vtbuf0 px_map a ha c g b hc hg hb]
    simp
  · intro hge
    rw [flush_tile_bits vtbuf0 px_map a ha c g b hc hg hb]
    have : ¬ g * 8 + b < spec_height a := by omega
    simp [this]
  · rw [flush_tile vtbuf0 px_map a ha c g hc hg]
    exact (ssd1680_display.bit_loop_bits _ a.x1 a.y1 (spec_height a) c g).1

theorem ssd1680_flush_vertical_tiling_witness :
    dirty_rect_ok ⟨8, 16, 23, 28⟩ ∧
    (((ssd1680_display.epd_flush_cb (fun _ => 0) ⟨8, 16, 23, 28⟩ (fun _ => 255)).vtbuf
          (1 * spec_width ⟨8, 16, 23, 28⟩ + 3)).testBit (7 - 2) = true
        ↔ (1 * 8 + 2 < spec_height ⟨8, 16, 23, 28⟩
            ∧ spec_pixel (fun i => (fun _ => 255) (i + 8)) ((8 : Int).toNat + 3)
                ((16 : Int).toNat + (1 * 8 + 2)) = true)) :=
  ⟨by decide,
    (ssd1680_flush_vertical_tiling (fun _ => 0) (fun _ => 255) ⟨8, 16, 23, 28⟩
      (by decide) 3 1 2 (by decide) (by decide) (by decide)).2.2.2.1⟩

theorem to_u16_of_range (z : Int) (h0 : 0 ≤ z) (h1 : z < 65536) :
    ((to_u16 z : Nat) : Int) = z := by
  unfold to_u16; omega

theorem flush_calls (vtbuf0 px_map : Nat → Nat) (a : lv_area_t) :
    (ssd1680_display.epd_flush_cb vtbuf0 a px_map).calls
      = [{ x := ((to_u16 a.x1 : Nat) : Int), y := ((to_u16 a.y1 : Nat) : Int)
           desc :=
            { buf_size := ((ssd1680_display.epd_flush_cb vtbuf0 a px_map).w
                * (ssd1680_display.epd_flush_cb vtbuf0 a px_map).groups) % 4294967296
              width := (ssd1680_display.epd_flush_cb vtbuf0 a px_map).w
              pitch := (ssd1680_display.epd_flush_cb vtbuf0 a px_map).w
              height := ((ssd1680_display.epd_flush_cb vtbuf0 a px_map).groups * 8) % 65536 }
           buf := (ssd1680_display.epd_flush_cb vtbuf0 a px_map).vtbuf }] := rfl

theorem spec_size_le (a : lv_area_t) (ha : dirty_rect_ok a) :
    spec_groups a ≤ 16 ∧ spec_width a * spec_groups a ≤ 4000 := by
  obtain ⟨_, _, _, hw1, hw2, hh1, hh2, _, _⟩ := flush_geometry (fun _ => 0) (fun _ => 0) a ha
  have hg : spec_groups a ≤ 16 := by unfold spec_groups; omega
  exact ⟨hg, Nat.mul_le_mul hw2 hg⟩

theorem flush_desc (vtbuf0 px_map : Nat → Nat) (a : lv_area_t) (ha : dirty_rect_ok a) :
    (ssd1680_display.epd_flush_cb vtbuf0 a px_map).calls.map (fun k => (k.x, k.y, k.desc))
      = [(a.x1, a.y1,
          { buf_size := spec_width a * spec_groups a
            width := spec_width a
            pitch := spec_width a
            height := spec_groups a * 8 })] := by
  obtain ⟨gw, gh, gg, _⟩ := flush_geometry vtbuf0 px_map a ha
  obtain ⟨hg, hsz⟩ := spec_size_le a ha
  rw [flush_calls, gw, gg]
  have e1 : (spec_width a * spec_groups a) % 4294967296 = spec_width a * spec_groups a :=
    Nat.mod_eq_of_lt (by omega)
  have e2 : (spec_groups a * 8) % 65536 = spec_groups a * 8 := Nat.mod_eq_of_lt (by omega)
  have e3 : ((to_u16 a.x1 : Nat) : Int) = a.x1 := to_u16_of_range a.x1 ha.1 (by
    have := ha.2.2.2.2.2.2.1; omega)
  have e4 : ((to_u16 a.y1 : Nat) : Int) = a.y1 := to_u16_of_range a.y1 ha.2.2.2.1 (by
    have := ha.2.2.2.2.2.2.2; omega)
  simp only [List.map_cons, List.map_nil, e1, e2, e3, e4]

theorem in_panel_dirty (a : lv_area_t) (ha : in_panel a) :
    dirty_rect_ok a ∧ spec_width a = (a.x2 - a.x1 + 1).toNat
      ∧ spec_height a = (a.y2 - a.y1 + 1).toNat := by
  obtain ⟨h1, h2, h3, h4, h5, h6⟩ := ha
  refine ⟨⟨h1, h2, by omega, h4, h5, by omega, by omega, by omega⟩, ?_, ?_⟩
  · unfold spec_width spec_x2; omega
  · unfold spec_height spec_y2; omega

/-- C2 (`epd_hello_world`, `epd_flush_cb`), round trip: for every source buffer
and every rectangle within the physical panel (`0 ≤ x1 ≤ x2 ≤ 249`,
`0 ≤ y1 ≤ y2 ≤ 121`), the callback's width and height are `x2-x1+1` and
`y2-y1+1`, and un-tiling its output (bit `7 - (r mod 8)` of the byte of column
`c`, group `⌊r/8⌋`) gives back the source pixel `(x1+c, y1+r)` for every
`c < width`, `r < height`. -/
theorem hello_world_flush_round_trip (vtbuf0 px_map : Nat → Nat) (a : lv_area_t)
    (ha : in_panel a) (c r : Nat)
    (hc : c < (a.x2 - a.x1 + 1).toNat) (hr : r < (a.y2 - a.y1 + 1).toNat) :
    (epd_hello_world.epd_flush_cb vtbuf0 a px_map).w = (a.x2 - a.x1 + 1).toNat
    ∧ (epd_hello_world.epd_flush_cb vtbuf0 a px_map).h = (a.y2 - a.y1 + 1).toNat
    ∧ untile (epd_hello_world.epd_flush_cb vtbuf0 a px_map).vtbuf
          (a.x2 - a.x1 + 1).toNat c r
        = spec_pixel (fun i => px_map (i + 8)) (a.x1.toNat + c) (a.y1.toNat + r) := by
  obtain ⟨hd, ew, eh⟩ := in_panel_dirty a ha
  obtain ⟨gw, gh, _⟩ := flush_geometry vtbuf0 px_map a hd
  rw [hello_flush_same_as_ssd1680, ← ew, ← eh]
  refine ⟨gw, gh, ?_⟩
  rw [← ew] at hc
  rw [← eh] at hr
  have hg : r / 8 < spec_groups a := by unfold spec_groups; omega
  have hr8 : r / 8 * 8 + r % 8 = r := by omega
  unfold untile
  rw [flush_tile_bits vtbuf0 px_map a hd c (r / 8) (r % 8) hc hg (Nat.mod_lt _ (by norm_num)),
    hr8]
  simp [hr]

theorem hello_world_flush_round_trip_witness :
    in_panel ⟨8, 16, 23, 28⟩ ∧
    untile (epd_hello_world.epd_flush_cb (fun _ => 0) ⟨8, 16, 23, 28⟩ (fun i => i % 256)).vtbuf
          ((23 : Int) - 8 + 1).toNat 5 11
        = spec_pixel (fun i => (fun j => j % 256) (i + 8)) ((8 : Int).toNat + 5)
            ((16 : Int).toNat + 11) :=
  ⟨by decide,
    (hello_world_flush_round_trip (fun _ => 0) (fun i => i % 256) ⟨8, 16, 23, 28⟩
      (by decide) 5 11 (by decide) (by decide)).2.2⟩

/-- C3 (`EEZ_Studio_Demo`, `epd_flush_cb`): for every dirty rectangle with
`0 ≤ x1 ≤ x2 < 256`, `0 ≤ y1 ≤ y2 < 128`, `x1 ≤ 249`, `y1 ≤ 121` the callback
makes one `display_write` call whose descriptor has
`buf_size = width * ⌈height/8⌉`, `pitch = width` and `width = width` of the
rectangle clipped to 250x122; for the full canvas `(0,0,255,127)` that is
width 250, height 122, 16 groups and 4000 bytes. -/
theorem eez_flush_descriptor_size (vtbuf0 px_map : Nat → Nat) (a : lv_area_t)
    (ha : dirty_rect_ok a) :
    (EEZ_Studio_Demo.epd_flush_cb vtbuf0 a px_map).calls.map
        (fun k => (k.desc.buf_size, k.desc.pitch, k.desc.width))
      = [(spec_width a * spec_groups a, spec_width a, spec_width a)]
    ∧ (EEZ_Studio_Demo.epd_flush_cb vtbuf0 a px_map).w = spec_width a
    ∧ (EEZ_Studio_Demo.epd_flush_cb vtbuf0 a px_map).h = spec_height a
    ∧ (EEZ_Studio_Demo.epd_flush_cb vtbuf0 a px_map).groups = (spec_height a + 7) / 8
    ∧ (EEZ_Studio_Demo.epd_flush_cb vtbuf0 ⟨0, 0, 255, 127⟩ px_map).w = 250
    ∧ (EEZ_Studio_Demo.epd_flush_cb vtbuf0 ⟨0, 0, 255, 127⟩ px_map).h = 122
    ∧ (EEZ_Studio_Demo.epd_flush_cb vtbuf0 ⟨0, 0, 255, 127⟩ px_map).groups = 16
    ∧ (EEZ_Studio_Demo.epd_flush_cb vtbuf0 ⟨0, 0, 255, 127⟩ px_map).calls.map
        (fun k => (k.desc.buf_size, k.desc.pitch, k.desc.width))
      = [(4000, 250, 250)] := by
  have gen : ∀ r : lv_area_t, dirty_rect_ok r →
      (ssd1680_display.epd_flush_cb vtbuf0 r px_map).calls.map
          (fun k => (k.desc.buf_size, k.desc.pitch, k.desc.width))
        = [(spec_width r * spec_groups r, spec_width r, spec_width r)] := by
    intro r hr
    have := congrArg (List.map (fun t : Int × Int × display_buffer_descriptor =>
      (t.2.2.buf_size, t.2.2.pitch, t.2.2.width))) (flush_desc vtbuf0 px_map r hr)
    simpa [List.map_map] using this
  obtain ⟨gw, gh, gg, _⟩ := flush_geometry vtbuf0 px_map a ha
  have hf : dirty_rect_ok ⟨0, 0, 255, 127⟩ := by decide
  obtain ⟨fw, fh, fg, _⟩ := flush_geometry vtbuf0 px_map ⟨0, 0, 255, 127⟩ hf
  have s1 : spec_width ⟨0, 0, 255, 127⟩ = 250 := by decide
  have s2 : spec_height ⟨0, 0, 255, 127⟩ = 122 := by decide
  have s3 : spec_groups ⟨0, 0, 255, 127⟩ = 16 := by decide
  rw [eez_flush_same_as_ssd1680]
  refine ⟨gen a ha, gw, gh, gg, fw.trans s1, fh.trans s2, fg.trans s3, ?_⟩
  rw [gen _ hf, s1, s3]

theorem eez_flush_descriptor_size_witness :
    dirty_rect_ok ⟨8, 16, 23, 28⟩ ∧
    (EEZ_Studio_Demo.epd_flush_cb (fun _ => 0) ⟨8, 16, 23, 28⟩ (fun _ => 255)).calls.map
        (fun k => (k.desc.buf_size, k.desc.pitch, k.desc.width))
      = [(spec_width ⟨8, 16, 23, 28⟩ * spec_groups ⟨8, 16, 23, 28⟩,
          spec_width ⟨8, 16, 23, 28⟩, spec_width ⟨8, 16, 23, 28⟩)] :=
  ⟨by decide,
    (eez_flush_descriptor_size (fun _ => 0) (fun _ => 255) ⟨8, 16, 23, 28⟩ (by decide)).1⟩

/-! ## The rounder callback -/

theorem and_not_seven (n : Nat) (hn : n < 4294967296) : n &&& 4294967288 = 8 * (n / 8) := by
  apply Nat.eq_of_testBit_eq
  intro j
  have hm : (4294967288 : Nat) = 2 ^ 32 - (7 + 1) := by norm_num
  have h7 : (7 : Nat).testBit j = decide (j < 3) := by
    have := Nat.testBit_two_pow_sub_one 3 j
    norm_num at this
    simpa using this
  have hn' : n = 2 ^ 3 * (n / 8) + n % 8 := by omega
  have hq : (8 : Nat) * (n / 8) = 2 ^ 3 * (n / 8) := by norm_num
  rw [Nat.testBit_and, hm, Nat.testBit_two_pow_sub_succ (by norm_num), h7, hq,
    Nat.testBit_mul_pow_two]
  conv_lhs => rw [hn']
  rw [Nat.testBit_mul_pow_two_add _ (by omega : n % 8 < 2 ^ 3)]
  by_cases h3 : j < 3
  · have : ¬ j ≥ 3 := by omega
    simp [h3, this]
  · have h3' : j ≥ 3 := by omega
    by_cases h32 : j < 32
    · simp [h3, h3', h32]
    · have hlt : n / 8 < 2 ^ (j - 3) := by
        have h29 : 2 ^ 29 ≤ 2 ^ (j - 3) := Nat.pow_le_pow_right (by norm_num) (by omega)
        have : n / 8 < 2 ^ 29 := by norm_num; omega
        omega
      simp [h3, h3', h32, Nat.testBit_lt_two_pow hlt]

theorem or_seven (n : Nat) : n ||| 7 = 8 * (n / 8) + 7 := by
  apply Nat.eq_of_testBit_eq
  intro j
  have h7 : (7 : Nat).testBit j = decide (j < 3) := by
    have := Nat.testBit_two_pow_sub_one 3 j
    norm_num at this
    simpa using this
  have hn' : n = 2 ^ 3 * (n / 8) + n % 8 := by omega
  have hq : (8 : Nat) * (n / 8) = 2 ^ 3 * (n / 8) := by norm_num
  rw [Nat.testBit_or, h7, hq, Nat.testBit_mul_pow_two_add _ (by norm_num : 7 < 2 ^ 3), h7]
  conv_lhs => rw [hn']
  rw [Nat.testBit_mul_pow_two_add _ (by omega : n % 8 < 2 ^ 3)]
  by_cases h3 : j < 3 <;> simp [h3]

theorem to_i32_of_lt (n : Nat) (hn : n < 2147483648) : to_i32 n = (n : Int) := by
  unfold to_i32
  have : n % 4294967296 = n := Nat.mod_eq_of_lt (by omega)
  rw [this, if_pos hn]

theorem rounder_arith (a : lv_area_t) (hx1 : 0 ≤ a.x1) (hx1' : a.x1 < 2147483648)
    (hx2 : 0 ≤ a.x2) (hx2' : a.x2 < 2147483648) :
    ssd1680_display.rounder_cb a
      = { x1 := a.x1 - a.x1 % 8, y1 := a.y1, x2 := min (a.x2 - a.x2 % 8 + 7) 255, y2 := a.y2 }
    ∧ (ssd1680_display.rounder_cb a).x1 = ((a.x1.toNat &&& 4294967288 : Nat) : Int)
    ∧ (ssd1680_display.rounder_cb a).x2 = min ((a.x2.toNat ||| 7 : Nat) : Int) 255 := by
  have e1 : to_u32 a.x1 = a.x1.toNat := to_u32_of_nonneg _ hx1 (by omega)
  have e2 : to_u32 a.x2 = a.x2.toNat := to_u32_of_nonneg _ hx2 (by omega)
  have e3 : to_u32 (-8) = 4294967288 := by decide
  have e4 : to_i32 (8 * (a.x1.toNat / 8)) = ((8 * (a.x1.toNat / 8) : Nat) : Int) :=
    to_i32_of_lt _ (by omega)
  have e5 : to_i32 (8 * (a.x2.toNat / 8) + 7) = ((8 * (a.x2.toNat / 8) + 7 : Nat) : Int) :=
    to_i32_of_lt _ (by omega)
  have e6 : to_u32 ((8 * (a.x2.toNat / 8) + 7 : Nat) : Int) = 8 * (a.x2.toNat / 8) + 7 := by
    rw [to_u32_of_nonneg _ (by omega) (by omega)]; omega
  have ea := and_not_seven a.x1.toNat (by omega)
  have eo := or_seven a.x2.toNat
  simp only [ssd1680_display.rounder_cb, ssd1680_display.PANEL_HOR_RES, e1, e2, e3, ea, eo,
    e4, e5, e6]
  refine ⟨?_, trivial, ?_⟩
  · congr 1
    · omega
    · split_ifs <;> omega
  · split_ifs <;> omega

/-- C4 (`EEZ_Studio_Demo`, `rounder_cb`): for every dirty rectangle with
`0 ≤ x1 ≤ x2 < 256` the rounded rectangle has `x1' mod 8 = 0`, and
`x2' mod 8 = 7` or `x2' = 255`, and `x1' ≤ x2'`. -/
theorem eez_rounder_alignment (a : lv_area_t)
    (h0 : 0 ≤ a.x1) (h12 : a.x1 ≤ a.x2) (h2 : a.x2 < 256) :
    (EEZ_Studio_Demo.rounder_cb a).x1 % 8 = 0
    ∧ ((EEZ_Studio_Demo.rounder_cb a).x2 % 8 = 7 ∨ (EEZ_Studio_Demo.rounder_cb a).x2 = 255)
    ∧ (EEZ_Studio_Demo.rounder_cb a).x1 ≤ (EEZ_Studio_Demo.rounder_cb a).x2 := by
  rw [eez_rounder_same_as_ssd1680,
    (rounder_arith a h0 (by omega) (by omega) (by omega)).1]
  simp only
  omega

theorem eez_rounder_alignment_witness :
    (0 : Int) ≤ 3 ∧ (3 : Int) ≤ 10 ∧ (10 : Int) < 256
    ∧ (EEZ_Studio_Demo.rounder_cb ⟨3, 5, 10, 5⟩).x1 % 8 = 0
    ∧ ((EEZ_Studio_Demo.rounder_cb ⟨3, 5, 10, 5⟩).x2 % 8 = 7
        ∨ (EEZ_Studio_Demo.rounder_cb ⟨3, 5, 10, 5⟩).x2 = 255)
    ∧ (EEZ_Studio_Demo.rounder_cb ⟨3, 5, 10, 5⟩).x1
        ≤ (EEZ_Studio_Demo.rounder_cb ⟨3, 5, 10, 5⟩).x2 :=
  ⟨by decide, by decide, by decide,
    eez_rounder_alignment ⟨3, 5, 10, 5⟩ (by decide) (by decide) (by decide)⟩

/-- C5 (`ssd1680_display`, `rounder_cb`): for every rectangle with non-negative
`lv_coord_t` coordinates the callback returns exactly `(x1 & ~7, y1, x2', y2)`
with `x2' = x2 | 7` clamped to 255: `x1` is rounded down to a multiple of 8
(`x1 - x1 mod 8`), `x2` is rounded up to the next value ending in binary 111
(`x2 - x2 mod 8 + 7`) and clamped to `Wl - 1 = 255`, and `y1`, `y2` are passed
through (whatever their values). -/
theorem ssd1680_rounder_exact (a : lv_area_t)
    (hx1 : 0 ≤ a.x1) (hx1' : a.x1 < 2147483648) (hx2 : 0 ≤ a.x2) (hx2' : a.x2 < 2147483648) :
    ssd1680_display.rounder_cb a
      = { x1 := a.x1 - a.x1 % 8, y1 := a.y1, x2 := min (a.x2 - a.x2 % 8 + 7) 255, y2 := a.y2 }
    ∧ (ssd1680_display.rounder_cb a).x1 = ((a.x1.toNat &&& 4294967288 : Nat) : Int)
    ∧ (ssd1680_display.rounder_cb a).x2 = min ((a.x2.toNat ||| 7 : Nat) : Int) 255
    ∧ (ssd1680_display.rounder_cb a).x1 % 8 = 0
    ∧ (ssd1680_display.rounder_cb a).x1 ≤ a.x1 ∧ a.x1 < (ssd1680_display.rounder_cb a).x1 + 8
    ∧ (ssd1680_display.rounder_cb a).y1 = a.y1
    ∧ (ssd1680_display.rounder_cb a).y2 = a.y2 := by
  obtain ⟨r1, r2, r3⟩ := rounder_arith a hx1 hx1' hx2 hx2'
  refine ⟨r1, r2, r3, ?_, ?_, ?_, ?_, ?_⟩
  · rw [r1]; simp only; omega
  · rw [r1]; simp only; omega
  · rw [r1]; simp only; omega
  · rw [r1]
  · rw [r1]

theorem ssd1680_rounder_exact_witness :
    (0 : Int) ≤ 3 ∧ (3 : Int) < 2147483648 ∧ (0 : Int) ≤ 300 ∧ (300 : Int) < 2147483648
    ∧ ssd1680_display.rounder_cb ⟨3, 5, 300, 9⟩
      = { x1 := (3 : Int) - 3 % 8, y1 := 5, x2 := min ((300 : Int) - 300 % 8 + 7) 255, y2 := 9 } :=
  ⟨by decide, by decide, by decide, by decide,
    (ssd1680_rounder_exact ⟨3, 5, 300, 9⟩ (by decide) (by decide) (by decide) (by decide)).1⟩

/-! ## Clipping, bounds and the sink call -/

/-- C6 (`EEZ_Studio_Demo`, `epd_flush_cb`): the callback clips every rectangle
as `x2' = min(x2, 249)`, `y2' = min(y2, 121)` and leaves `x1`, `y1` unchanged,
so `x2' < 250` and `y2' < 122`; a rectangle with `y2 = 122` and `y1 ≤ 121`
(and `122 - y1` within `uint16_t`, as for every `y1 ≥ 0`) is transcoded with
`y2' = 121` and `height = 122 - y1`, and none of its rows `y1 + r`,
`r < height`, is row 122. -/
theorem eez_flush_clipping (vtbuf0 px_map : Nat → Nat) (a : lv_area_t) :
    (EEZ_Studio_Demo.epd_flush_cb vtbuf0 a px_map).x1 = a.x1
    ∧ (EEZ_Studio_Demo.epd_flush_cb vtbuf0 a px_map).y1 = a.y1
    ∧ (EEZ_Studio_Demo.epd_flush_cb vtbuf0 a px_map).x2 = min a.x2 249
    ∧ (EEZ_Studio_Demo.epd_flush_cb vtbuf0 a px_map).y2 = min a.y2 121
    ∧ (EEZ_Studio_Demo.epd_flush_cb vtbuf0 a px_map).x2 < 250
    ∧ (EEZ_Studio_Demo.epd_flush_cb vtbuf0 a px_map).y2 < 122
    ∧ (a.y2 = 122 → 122 - a.y1 < 65536 → a.y1 ≤ 121 →
        (EEZ_Studio_Demo.epd_flush_cb vtbuf0 a px_map).y2 = 121
        ∧ ((EEZ_Studio_Demo.epd_flush_cb vtbuf0 a px_map).h : Int) = 122 - a.y1
        ∧ ∀ r : Nat, r < (EEZ_Studio_Demo.epd_flush_cb vtbuf0 a px_map).h →
            a.y1 + (r : Int) < 122) := by
  simp only [EEZ_Studio_Demo.epd_flush_cb, to_u16]
  refine ⟨trivial, trivial, ?_, ?_, ?_, ?_, ?_⟩
  · split_ifs <;> omega
  · split_ifs <;> omega
  · split_ifs <;> omega
  · split_ifs <;> omega
  · intro h1 h2 h3
    rw [h1]
    simp only [ge_iff_le, le_refl, if_true]
    refine ⟨trivial, by omega, ?_⟩
    intro r hr
    omega

theorem eez_flush_clipping_witness :
    (122 : Int) = 122 ∧ (122 : Int) - 100 < 65536 ∧ (100 : Int) ≤ 121
    ∧ (EEZ_Studio_Demo.epd_flush_cb (fun _ => 0) ⟨0, 100, 7, 122⟩ (fun _ => 255)).y2 = 121
    ∧ ((EEZ_Studio_Demo.epd_flush_cb (fun _ => 0) ⟨0, 100, 7, 122⟩ (fun _ => 255)).h : Int)
        = 122 - 100 :=
  ⟨by decide, by decide, by decide,
    ((eez_flush_clipping (fun _ => 0) (fun _ => 255) ⟨0, 100, 7, 122⟩).2.2.2.2.2.2
      (by decide) (by decide) (by decide)).1,
    ((eez_flush_clipping (fun _ => 0) (fun _ => 255) ⟨0, 100, 7, 122⟩).2.2.2.2.2.2
      (by decide) (by decide) (by decide)).2.1⟩

theorem foldl_fixed {σ α : Type} (f : σ → α → σ) (s : σ) (hf : ∀ i, f s i = s)
    (l : List α) : l.foldl f s = s := by
  induction l with
  | nil => rfl
  | cons i l ih => rw [List.foldl_cons, hf i, ih]

theorem columns_loop_empty (px : Nat → Nat) (x1 y1 : Int) (w h groups : Nat)
    (st : flush_state) (he : w = 0 ∨ groups = 0) :
    (List.range w).foldl (ssd1680_display.column_body px x1 y1 w h groups) st = st := by
  rcases he with hw | hg
  · subst hw; rfl
  · subst hg
    exact foldl_fixed _ st (fun _ => rfl) _

theorem flush_empty (vtbuf0 px_map : Nat → Nat) (a : lv_area_t)
    (he : (ssd1680_display.epd_flush_cb vtbuf0 a px_map).w = 0
      ∨ (ssd1680_display.epd_flush_cb vtbuf0 a px_map).groups = 0) :
    (ssd1680_display.epd_flush_cb vtbuf0 a px_map).vtbuf = vtbuf0
    ∧ (ssd1680_display.epd_flush_cb vtbuf0 a px_map).vt_writes = []
    ∧ (ssd1680_display.epd_flush_cb vtbuf0 a px_map).px_reads = []
    ∧ (ssd1680_display.epd_flush_cb vtbuf0 a px_map).calls.map
        (fun k => (k.x, k.y, k.desc.buf_size))
      = [(((to_u16 a.x1 : Nat) : Int), ((to_u16 a.y1 : Nat) : Int), 0)] := by
  have key := columns_loop_empty (fun i => px_map (i + 8)) a.x1 a.y1
    (ssd1680_display.epd_flush_cb vtbuf0 a px_map).w
    (ssd1680_display.epd_flush_cb vtbuf0 a px_map).h
    (ssd1680_display.epd_flush_cb vtbuf0 a px_map).groups
    { vtbuf := vtbuf0, px_reads := [], vt_writes := [] } he
  have hv : (ssd1680_display.epd_flush_cb vtbuf0 a px_map).vtbuf
      = ((List.range (ssd1680_display.epd_flush_cb vtbuf0 a px_map).w).foldl
          (ssd1680_display.column_body (fun i => px_map (i + 8)) a.x1 a.y1
            (ssd1680_display.epd_flush_cb vtbuf0 a px_map).w
            (ssd1680_display.epd_flush_cb vtbuf0 a px_map).h
            (ssd1680_display.epd_flush_cb vtbuf0 a px_map).groups)
          { vtbuf := vtbuf0, px_reads := [], vt_writes := [] }).vtbuf := rfl
  have hwr : (ssd1680_display.epd_flush_cb vtbuf0 a px_map).vt_writes
      = ((List.range (ssd1680_display.epd_flush_cb vtbuf0 a px_map).w).foldl
          (ssd1680_display.column_body (fun i => px_map (i + 8)) a.x1 a.y1
            (ssd1680_display.epd_flush_cb vtbuf0 a px_map).w
            (ssd1680_display.epd_flush_cb vtbuf0 a px_map).h
            (ssd1680_display.epd_flush_cb vtbuf0 a px_map).groups)
          { vtbuf := vtbuf0, px_reads := [], vt_writes := [] }).vt_writes := rfl
  have hrd : (ssd1680_display.epd_flush_cb vtbuf0 a px_map).px_reads
      = ((List.range (ssd1680_display.epd_flush_cb vtbuf0 a px_map).w).foldl
          (ssd1680_display.column_body (fun i => px_map (i + 8)) a.x1 a.y1
            (ssd1680_display.epd_flush_cb vtbuf0 a px_map).w
            (ssd1680_display.epd_flush_cb vtbuf0 a px_map).h
            (ssd1680_display.epd_flush_cb vtbuf0 a px_map).groups)
          { vtbuf := vtbuf0, px_reads := [], vt_writes := [] }).px_reads := rfl
  rw [key] at hv hwr hrd
  refine ⟨hv, hwr, hrd, ?_⟩
  rw [flush_calls]
  have hz : (ssd1680_display.epd_flush_cb vtbuf0 a px_map).w
      * (ssd1680_display.epd_flush_cb vtbuf0 a px_map).groups = 0 := by
    rcases he with h | h <;> rw [h] <;> simp
  simp only [List.map_cons, List.map_nil, hz, Nat.zero_mod]

/-- C7, counterexample (`EEZ_Studio_Demo`, `epd_flush_cb`): the canvas
rectangle `(0,122,7,127)` is emptied by clipping (`y1 = 122 > 121 = y2'`) and
the callback does produce height 0, but it still makes one `display_write`
call: there is no guard that skips the sink. -/
theorem eez_flush_empty_region_counterexample :
    spec_y2 ⟨0, 122, 7, 127⟩ < (⟨0, 122, 7, 127⟩ : lv_area_t).y1
    ∧ (EEZ_Studio_Demo.epd_flush_cb (fun _ => 0) ⟨0, 122, 7, 127⟩ (fun _ => 0)).h = 0
    ∧ (EEZ_Studio_Demo.epd_flush_cb (fun _ => 0) ⟨0, 122, 7, 127⟩ (fun _ => 0)).calls.length = 1
    ∧ ¬ (((EEZ_Studio_Demo.epd_flush_cb (fun _ => 0) ⟨0, 122, 7, 127⟩ (fun _ => 0)).w = 0
          ∨ (EEZ_Studio_Demo.epd_flush_cb (fun _ => 0) ⟨0, 122, 7, 127⟩ (fun _ => 0)).h = 0)
        ∧ (EEZ_Studio_Demo.epd_flush_cb (fun _ => 0) ⟨0, 122, 7, 127⟩ (fun _ => 0)).calls.length
            = 0) := by
  refine ⟨by decide, by decide, by decide, ?_⟩
  intro h
  exact absurd h.2 (by decide)

/-- C7, amended (`EEZ_Studio_Demo`, `epd_flush_cb`): for every rectangle that
clipping leaves empty by exactly one column or one row (`x1 = min(x2,249) + 1`
or `y1 = min(y2,121) + 1`) the callback produces an empty result (width 0 or
height 0): it reads no source byte, writes no byte of `vtbuf`, and makes
exactly one `display_write` call, with `buf_size = 0` and with the origin
`x1`, `y1` converted to `uint16_t`, which is `(x1, y1)` itself whenever both
lie in `0..65535`. -/
theorem eez_flush_empty_region (vtbuf0 px_map : Nat → Nat) (a : lv_area_t)
    (he : a.x1 = min a.x2 249 + 1 ∨ a.y1 = min a.y2 121 + 1) :
    ((EEZ_Studio_Demo.epd_flush_cb vtbuf0 a px_map).w = 0
      ∨ (EEZ_Studio_Demo.epd_flush_cb vtbuf0 a px_map).h = 0)
    ∧ (EEZ_Studio_Demo.epd_flush_cb vtbuf0 a px_map).vtbuf = vtbuf0
    ∧ (EEZ_Studio_Demo.epd_flush_cb vtbuf0 a px_map).vt_writes = []
    ∧ (EEZ_Studio_Demo.epd_flush_cb vtbuf0 a px_map).px_reads = []
    ∧ (EEZ_Studio_Demo.epd_flush_cb vtbuf0 a px_map).calls.map
        (fun k => (k.x, k.y, k.desc.buf_size))
      = [(((to_u16 a.x1 : Nat) : Int), ((to_u16 a.y1 : Nat) : Int), 0)]
    ∧ (0 ≤ a.x1 → a.x1 < 65536 → 0 ≤ a.y1 → a.y1 < 65536 →
        (EEZ_Studio_Demo.epd_flush_cb vtbuf0 a px_map).calls.map
          (fun k => (k.x, k.y, k.desc.buf_size)) = [(a.x1, a.y1, 0)]) := by
  rw [eez_flush_same_as_ssd1680]
  have hwh : (ssd1680_display.epd_flush_cb vtbuf0 a px_map).w = 0
      ∨ ((ssd1680_display.epd_flush_cb vtbuf0 a px_map).h = 0
        ∧ (ssd1680_display.epd_flush_cb vtbuf0 a px_map).groups = 0) := by
    simp only [ssd1680_display.epd_flush_cb, to_u16, Nat.shiftRight_eq_div_pow]
    rcases he with h | h
    · left; split_ifs <;> omega
    · right; constructor <;> split_ifs <;> omega
  have hwg : (ssd1680_display.epd_flush_cb vtbuf0 a px_map).w = 0
      ∨ (ssd1680_display.epd_flush_cb vtbuf0 a px_map).groups = 0 := by
    rcases hwh with h | h
    · exact Or.inl h
    · exact Or.inr h.2
  obtain ⟨k1, k2, k3, k4⟩ := flush_empty vtbuf0 px_map a hwg
  refine ⟨?_, k1, k2, k3, k4, ?_⟩
  · rcases hwh with h | h
    · exact Or.inl h
    · exact Or.inr h.1
  · intro hx0 hx1 hy0 hy1
    rw [k4, to_u16_of_range a.x1 hx0 hx1, to_u16_of_range a.y1 hy0 hy1]

theorem eez_flush_empty_region_witness :
    ((0 : Int) = min 7 249 + 1 ∨ (122 : Int) = min 127 121 + 1)
    ∧ (0 : Int) ≤ 0 ∧ (0 : Int) < 65536 ∧ (0 : Int) ≤ 122 ∧ (122 : Int) < 65536
    ∧ ((EEZ_Studio_Demo.epd_flush_cb (fun _ => 0) ⟨0, 122, 7, 127⟩ (fun _ => 255)).w = 0
      ∨ (EEZ_Studio_Demo.epd_flush_cb (fun _ => 0) ⟨0, 122, 7, 127⟩ (fun _ => 255)).h = 0)
    ∧ (EEZ_Studio_Demo.epd_flush_cb (fun _ => 0) ⟨0, 122, 7, 127⟩ (fun _ => 255)).calls.map
        (fun k => (k.x, k.y, k.desc.buf_size)) = [(0, 122, 0)] :=
  ⟨by decide, by decide, by decide, by decide, by decide,
    (eez_flush_empty_region (fun _ => 0) (fun _ => 255) ⟨0, 122, 7, 127⟩ (by decide)).1,
    (eez_flush_empty_region (fun _ => 0) (fun _ => 255) ⟨0, 122, 7, 127⟩ (by decide)).2.2.2.2.2
      (by decide) (by decide) (by decide) (by decide)⟩

theorem tile_index_lt {w groups c g : Nat} (hc : c < w) (hg : g < groups) :
    g * w + c < w * groups := by
  have h1 : g * w + c < (g + 1) * w := by rw [Nat.succ_mul]; omega
  have h2 : (g + 1) * w ≤ groups * w := Nat.mul_le_mul_right w hg
  rw [Nat.mul_comm w groups]
  omega

/-- C8 (`EEZ_Studio_Demo`, `epd_flush_cb`): for every dirty rectangle with
`0 ≤ x1 ≤ x2 < 256`, `0 ≤ y1 ≤ y2 < 128`, `x1 ≤ 249`, `y1 ≤ 121`, every index
the callback uses is inside its buffer: each source index read is
`⌊((y1+r)*256 + x1+c)/8⌋` for some `c < width`, `r < height` and is at most
`256*128/8 - 1 = 4095` (so the read stays inside `draw_buf` after the 8-byte
palette), and each `vtbuf` index written is `g*width + c` for some `c < width`,
`g < groups` and is below `width*groups`, which is at most the 4096 elements of
`vtbuf`; there are exactly `width*groups` writes. -/
theorem eez_flush_indices_in_bounds (vtbuf0 px_map : Nat → Nat) (a : lv_area_t)
    (ha : dirty_rect_ok a) :
    (∀ i ∈ (EEZ_Studio_Demo.epd_flush_cb vtbuf0 a px_map).px_reads,
        i ≤ (EEZ_Studio_Demo.PANEL_HOR_RES * EEZ_Studio_Demo.PANEL_VER_RES) / 8 - 1
        ∧ i + 8 < EEZ_Studio_Demo.DRAW_BUF_SIZE
        ∧ ∃ c r, c < spec_width a ∧ r < spec_height a
            ∧ i = ((a.y1.toNat + r) * 256 + (a.x1.toNat + c)) / 8)
    ∧ (∀ j ∈ (EEZ_Studio_Demo.epd_flush_cb vtbuf0 a px_map).vt_writes,
        j < spec_width a * spec_groups a
        ∧ j < EEZ_Studio_Demo.VTBUF_LEN
        ∧ ∃ c g, c < spec_width a ∧ g < spec_groups a ∧ j = g * spec_width a + c)
    ∧ spec_width a * spec_groups a ≤ EEZ_Studio_Demo.VTBUF_LEN
    ∧ EEZ_Studio_Demo.VTBUF_LEN = 4096
    ∧ (EEZ_Studio_Demo.PANEL_HOR_RES * EEZ_Studio_Demo.PANEL_VER_RES) / 8 - 1 = 4095
    ∧ (EEZ_Studio_Demo.epd_flush_cb vtbuf0 a px_map).vt_writes.length
        = spec_width a * spec_groups a := by
  obtain ⟨gw, gh, gg, hw1, hw2, hh1, hh2, hxw, hyh⟩ := flush_geometry vtbuf0 px_map a ha
  obtain ⟨hg16, hsz⟩ := spec_size_le a ha
  obtain ⟨_, k2, k3, k4⟩ := flush_loops vtbuf0 px_map a
  rw [gw, gg] at k2 k3
  rw [gw, gg, gh] at k4
  have ha' := ha
  obtain ⟨h1, h2, h3, h4, h5, h6, h7, h8⟩ := ha'
  have eV : EEZ_Studio_Demo.VTBUF_LEN = 4096 := by decide
  have eS : (EEZ_Studio_Demo.PANEL_HOR_RES * EEZ_Studio_Demo.PANEL_VER_RES) / 8 - 1 = 4095 := by
    decide
  have eD : EEZ_Studio_Demo.DRAW_BUF_SIZE = 4104 := by decide
  rw [eez_flush_same_as_ssd1680, eV, eS, eD]
  refine ⟨?_, ?_, by omega, rfl, rfl, k3⟩
  · intro i hi
    obtain ⟨c, g, b, hc, hg, hb, hr, rfl⟩ := k4 i hi
    have hx : a.x1 + (c : Int) < 65536 := by unfold spec_x2 at hxw; omega
    have hy : a.y1 + (((g * 8 + b) % 65536 : Nat) : Int) < 65536 := by
      unfold spec_y2 at hyh; omega
    rw [read_index_eq_spec a.x1 a.y1 c _ h1 h4 hx hy]
    refine ⟨?_, ?_, c, (g * 8 + b) % 65536, hc, hr, rfl⟩
    · unfold spec_x2 at hxw; unfold spec_y2 at hyh; omega
    · unfold spec_x2 at hxw; unfold spec_y2 at hyh; omega
  · intro j hj
    obtain ⟨c, g, hc, hg, rfl⟩ := k2 j hj
    have hlt := tile_index_lt hc hg
    exact ⟨hlt, by omega, c, g, hc, hg, rfl⟩

theorem eez_flush_indices_in_bounds_witness :
    dirty_rect_ok ⟨0, 0, 255, 127⟩
    ∧ (∀ j ∈ (EEZ_Studio_Demo.epd_flush_cb (fun _ => 0) ⟨0, 0, 255, 127⟩
            (fun _ => 255)).vt_writes,
        j < spec_width ⟨0, 0, 255, 127⟩ * spec_groups ⟨0, 0, 255, 127⟩
        ∧ j < EEZ_Studio_Demo.VTBUF_LEN
        ∧ ∃ c g, c < spec_width ⟨0, 0, 255, 127⟩ ∧ g < spec_groups ⟨0, 0, 255, 127⟩
            ∧ j = g * spec_width ⟨0, 0, 255, 127⟩ + c)
    ∧ (EEZ_Studio_Demo.epd_flush_cb (fun _ => 0) ⟨0, 0, 255, 127⟩
          (fun _ => 255)).vt_writes.length
        = spec_width ⟨0, 0, 255, 127⟩ * spec_groups ⟨0, 0, 255, 127⟩ :=
  ⟨by decide,
    (eez_flush_indices_in_bounds (fun _ => 0) (fun _ => 255) ⟨0, 0, 255, 127⟩ (by decide)).2.1,
    (eez_flush_indices_in_bounds (fun _ => 0) (fun _ => 255) ⟨0, 0, 255, 127⟩
      (by decide)).2.2.2.2.2⟩

/-- C9 (`ssd1680_display`, `epd_flush_cb`): for every dirty rectangle with
`0 ≤ x1 ≤ x2 < 256`, `0 ≤ y1 ≤ y2 < 128`, `x1 ≤ 249`, `y1 ≤ 121` the callback
makes one `display_write` call, with origin `(x1, y1)` and
`height = groups * 8`, `groups = ⌈height/8⌉` of the clipped rectangle; the
reported height is a multiple of 8, at least the clipped height and less than
8 above it. -/
theorem ssd1680_flush_reported_height (vtbuf0 px_map : Nat → Nat) (a : lv_area_t)
    (ha : dirty_rect_ok a) :
    (ssd1680_display.epd_flush_cb vtbuf0 a px_map).calls.map
        (fun k => (k.x, k.y, k.desc.height))
      = [(a.x1, a.y1, ((spec_height a + 7) / 8) * 8)]
    ∧ (ssd1680_display.epd_flush_cb vtbuf0 a px_map).groups = (spec_height a + 7) / 8
    ∧ (ssd1680_display.epd_flush_cb vtbuf0 a px_map).h = spec_height a
    ∧ (((spec_height a + 7) / 8) * 8) % 8 = 0
    ∧ spec_height a ≤ ((spec_height a + 7) / 8) * 8
    ∧ ((spec_height a + 7) / 8) * 8 < spec_height a + 8 := by
  obtain ⟨gw, gh, gg, _⟩ := flush_geometry vtbuf0 px_map a ha
  refine ⟨?_, gg, gh, by omega, by omega, by omega⟩
  have := congrArg (List.map (fun t : Int × Int × display_buffer_descriptor =>
    (t.1, t.2.1, t.2.2.height))) (flush_desc vtbuf0 px_map a ha)
  simpa [List.map_map, spec_groups] using this

theorem ssd1680_flush_reported_height_witness :
    dirty_rect_ok ⟨8, 16, 23, 28⟩
    ∧ (ssd1680_display.epd_flush_cb (fun _ => 0) ⟨8, 16, 23, 28⟩ (fun _ => 255)).calls.map
        (fun k => (k.x, k.y, k.desc.height))
      = [(8, 16, ((spec_height ⟨8, 16, 23, 28⟩ + 7) / 8) * 8)] :=
  ⟨by decide,
    (ssd1680_flush_reported_height (fun _ => 0) (fun _ => 255) ⟨8, 16, 23, 28⟩ (by decide)).1⟩

/-! ## Concrete scenario 2 -/

theorem scenario2_px_map_pixels (x y : Nat) (hx : x < 256) (_hy : y < 128) :
    spec_pixel (fun i => scenario2_px_map (i + 8)) x y = true ↔ (y = 5 ∧ x < 16) := by
  unfold spec_pixel scenario2_px_map
  simp only
  by_cases h : y = 5 ∧ x < 16
  · have hi : (y * 256 + x) / 8 + 8 = 168 ∨ (y * 256 + x) / 8 + 8 = 169 := by omega
    have h255 : (255 : Nat).testBit (7 - (y * 256 + x) % 8) = true := by
      have := Nat.testBit_two_pow_sub_one 8 (7 - (y * 256 + x) % 8)
      norm_num at this
      rw [this, decide_eq_true_eq]; omega
    exact ⟨fun _ => h, fun _ => by rw [if_pos hi]; exact h255⟩
  · have hi : ¬ ((y * 256 + x) / 8 + 8 = 168 ∨ (y * 256 + x) / 8 + 8 = 169) := by omega
    refine ⟨fun e => ?_, fun e => absurd e h⟩
    rw [if_neg hi, Nat.zero_testBit] at e
    exact absurd e (by decide)

theorem byte_eq_128 (v : Nat) (hv : v < 256) (h7 : v.testBit 7 = true)
    (hlow : ∀ b, 1 ≤ b → b < 8 → v.testBit (7 - b) = false) : v = 128 := by
  apply Nat.eq_of_testBit_eq
  intro i
  have e : (128 : Nat) = 2 ^ 7 := by norm_num
  rw [e, Nat.testBit_two_pow]
  by_cases hi : i = 7
  · subst hi; simpa using h7
  · have hd : decide (7 = i) = false := by simp; omega
    rw [hd]
    by_cases h8 : i < 8
    · have := hlow (7 - i) (by omega) (by omega)
      have e2 : 7 - (7 - i) = i := by omega
      rw [e2] at this
      exact this
    · have hp : 2 ^ 8 ≤ 2 ^ i := Nat.pow_le_pow_right (by norm_num) (by omega)
      exact Nat.testBit_lt_two_pow (by omega)

/-- C10, counterexample (`epd_hello_world`): `rounder_cb` does align
`(3,5,10,5)` to `(0,5,15,5)`, and the source buffer of the scenario has exactly
the pixels `(x,5)`, `x < 16`, set; but on that rectangle `epd_flush_cb` writes
sixteen bytes `0x80`, not `0x04`. -/
theorem hello_world_scenario2_counterexample :
    epd_hello_world.rounder_cb ⟨3, 5, 10, 5⟩ = ⟨0, 5, 15, 5⟩
    ∧ (∀ x y, x < 256 → y < 128 →
        (spec_pixel (fun i => scenario2_px_map (i + 8)) x y = true ↔ (y = 5 ∧ x < 16)))
    ∧ (epd_hello_world.epd_flush_cb (fun _ => 0) ⟨0, 5, 15, 5⟩ scenario2_px_map).calls.map
        (fun k => k.desc.buf_size) = [16]
    ∧ (List.range 16).map
        (epd_hello_world.epd_flush_cb (fun _ => 0) ⟨0, 5, 15, 5⟩ scenario2_px_map).vtbuf
      = List.replicate 16 128
    ∧ ¬ ((List.range 16).map
        (epd_hello_world.epd_flush_cb (fun _ => 0) ⟨0, 5, 15, 5⟩ scenario2_px_map).vtbuf
      = List.replicate 16 4) := by
  refine ⟨by decide, scenario2_px_map_pixels, by decide, by decide, by decide⟩

/-- C10, amended (`epd_hello_world`): `rounder_cb` aligns `(3,5,10,5)` to
`x1 = 0`, `x2 = 15` with `y1 = y2 = 5` (width 16), and for every source buffer
whose pixels `(x,5)`, `x < 16`, are set and whose other pixels are clear,
`epd_flush_cb` on the aligned rectangle produces 16 destination bytes each
equal to `0x80`: the rectangle's only row is row 0 of group 0, which is
bit 7. -/
theorem hello_world_scenario2 (vtbuf0 px_map : Nat → Nat)
    (hsrc : ∀ x y, x < 256 → y < 128 →
      (spec_pixel (fun i => px_map (i + 8)) x y = true ↔ (y = 5 ∧ x < 16))) :
    epd_hello_world.rounder_cb ⟨3, 5, 10, 5⟩ = ⟨0, 5, 15, 5⟩
    ∧ (epd_hello_world.epd_flush_cb vtbuf0 ⟨0, 5, 15, 5⟩ px_map).w = 16
    ∧ (epd_hello_world.epd_flush_cb vtbuf0 ⟨0, 5, 15, 5⟩ px_map).h = 1
    ∧ (epd_hello_world.epd_flush_cb vtbuf0 ⟨0, 5, 15, 5⟩ px_map).calls.map
        (fun k => k.desc.buf_size) = [16]
    ∧ ∀ c, c < 16 →
        (epd_hello_world.epd_flush_cb vtbuf0 ⟨0, 5, 15, 5⟩ px_map).vtbuf c = 0x80 := by
  have hr : dirty_rect_ok ⟨0, 5, 15, 5⟩ := by decide
  have sw : spec_width ⟨0, 5, 15, 5⟩ = 16 := by decide
  have sh : spec_height ⟨0, 5, 15, 5⟩ = 1 := by decide
  have sg : spec_groups ⟨0, 5, 15, 5⟩ = 1 := by decide
  obtain ⟨gw, gh, gg, _⟩ := flush_geometry vtbuf0 px_map ⟨0, 5, 15, 5⟩ hr
  rw [hello_flush_same_as_ssd1680]
  refine ⟨by decide, gw.trans sw, gh.trans sh, ?_, ?_⟩
  · have := congrArg (List.map (fun t : Int × Int × display_buffer_descriptor =>
      t.2.2.buf_size)) (flush_desc vtbuf0 px_map ⟨0, 5, 15, 5⟩ hr)
    simpa [List.map_map, sw, sg] using this
  · intro c hc
    have hcw : c < spec_width ⟨0, 5, 15, 5⟩ := by rw [sw]; exact hc
    have hg0 : 0 < spec_groups ⟨0, 5, 15, 5⟩ := by rw [sg]; norm_num
    have hidx : 0 * spec_width ⟨0, 5, 15, 5⟩ + c = c := by omega
    have hbits := fun b hb => flush_tile_bits vtbuf0 px_map ⟨0, 5, 15, 5⟩ hr c 0 b hcw hg0 hb
    have hlt := (ssd1680_display.bit_loop_bits (fun i => px_map (i + 8)) 0 5 1 c 0).1
    have htile := flush_tile vtbuf0 px_map ⟨0, 5, 15, 5⟩ hr c 0 hcw hg0
    rw [hidx, sh] at htile
    simp only [hidx, sh] at hbits
    apply byte_eq_128
    · rw [htile]; exact hlt
    · have h0 := hbits 0 (by norm_num)
      have hp : spec_pixel (fun i => px_map (i + 8)) c 5 = true :=
        (hsrc c 5 (by omega) (by norm_num)).mpr ⟨rfl, hc⟩
      simpa [hp] using h0
    · intro b hb1 hb8
      have hb := hbits b hb8
      have hb0 : b ≠ 0 := by omega
      simpa [hb0] using hb

theorem hello_world_scenario2_witness :
    (∀ x y, x < 256 → y < 128 →
      (spec_pixel (fun i => scenario2_px_map (i + 8)) x y = true ↔ (y = 5 ∧ x < 16)))
    ∧ ∀ c, c < 16 →
        (epd_hello_world.epd_flush_cb (fun _ => 0) ⟨0, 5, 15, 5⟩ scenario2_px_map).vtbuf c
          = 0x80 :=
  ⟨scenario2_px_map_pixels,
    (hello_world_scenario2 (fun _ => 0) scenario2_px_map scenario2_px_map_pixels).2.2.2.2⟩

/-! ## The three copies side by side -/

/-- C11 (`EEZ_Studio_Demo`, `epd_hello_world`, `ssd1680_display`): the three
copies are interchangeable.  For every rectangle, every source buffer and every
previous content of the scratch buffer the three `epd_flush_cb` leave the same
tile bytes in `vtbuf`, make the same `display_write` calls (same origin, same
descriptor `buf_size`, `width`, `height`, `pitch`, same buffer content) and
agree on every other observable of the run, and the three `rounder_cb` return
the same rectangle for every input. -/
theorem three_copies_interchangeable (vtbuf0 px_map : Nat → Nat) (a : lv_area_t) :
    (∀ i, (EEZ_Studio_Demo.epd_flush_cb vtbuf0 a px_map).vtbuf i
        = (epd_hello_world.epd_flush_cb vtbuf0 a px_map).vtbuf i)
    ∧ (∀ i, (epd_hello_world.epd_flush_cb vtbuf0 a px_map).vtbuf i
        = (ssd1680_display.epd_flush_cb vtbuf0 a px_map).vtbuf i)
    ∧ (EEZ_Studio_Demo.epd_flush_cb vtbuf0 a px_map).calls.map (fun k => (k.x, k.y, k.desc))
        = (epd_hello_world.epd_flush_cb vtbuf0 a px_map).calls.map (fun k => (k.x, k.y, k.desc))
    ∧ (epd_hello_world.epd_flush_cb vtbuf0 a px_map).calls.map (fun k => (k.x, k.y, k.desc))
        = (ssd1680_display.epd_flush_cb vtbuf0 a px_map).calls.map (fun k => (k.x, k.y, k.desc))
    ∧ EEZ_Studio_Demo.epd_flush_cb vtbuf0 a px_map
        = epd_hello_world.epd_flush_cb vtbuf0 a px_map
    ∧ epd_hello_world.epd_flush_cb vtbuf0 a px_map
        = ssd1680_display.epd_flush_cb vtbuf0 a px_map
    ∧ EEZ_Studio_Demo.rounder_cb a = epd_hello_world.rounder_cb a
    ∧ epd_hello_world.rounder_cb a = ssd1680_display.rounder_cb a := by
  have e1 : EEZ_Studio_Demo.epd_flush_cb vtbuf0 a px_map
      = epd_hello_world.epd_flush_cb vtbuf0 a px_map := by
    rw [eez_flush_same_as_ssd1680, hello_flush_same_as_ssd1680]
  have e2 : epd_hello_world.epd_flush_cb vtbuf0 a px_map
      = ssd1680_display.epd_flush_cb vtbuf0 a px_map := by
    rw [hello_flush_same_as_ssd1680]
  have r1 : EEZ_Studio_Demo.rounder_cb a = epd_hello_world.rounder_cb a := by
    rw [eez_rounder_same_as_ssd1680, hello_rounder_same_as_ssd1680]
  have r2 : epd_hello_world.rounder_cb a = ssd1680_display.rounder_cb a := by
    rw [hello_rounder_same_as_ssd1680]
  refine ⟨fun i => ?_, fun i => ?_, ?_, ?_, e1, e2, r1, r2⟩
  · rw [e1]
  · rw [e2]
  · rw [e1]
  · rw [e2]
